import Mathlib

/-! The terrain core of openage: `src/engine/terrain.cpp`.

A shallow embedding of `engine::Terrain`: the chunk store (`std::map` from chunk
coordinates to chunk pointers), the eight-direction neighbor resolver, the attach
protocol, the sub-texture indexer and the blend resolver.

Conventions of the embedding.

* A `TerrainChunk *` is `Option Nat`: `none` is `nullptr`, `some a` is the chunk object at
  address `a`.  The chunk objects live in a heap `Nat → TerrainChunk`.
* `coord::chunk_t` and `coord::tile_t` (declared in the coordinate headers, outside
  `terrain.cpp`) are unbounded integers, `unsigned` is a natural number reduced modulo
  `2 ^ 32` after every arithmetic step, `size_t` ids are natural numbers.
* C arrays reached through a pointer (`int *`, `Texture **`, `terrain_type *`) are functions
  of the index.
* `throw Error(...)` is the `Except.error` outcome.
-/

namespace engine

/-! ## Coordinates -/

namespace coord

/-- The type `coord::chunk`: position of a chunk, axes `ne` and `se`. -/
structure chunk where
  ne : Int
  se : Int
deriving DecidableEq, Repr

/-- The type `coord::tile`: position of a tile, axes `ne` and `se`. -/
structure tile where
  ne : Int
  se : Int
deriving DecidableEq, Repr

/-- The type `coord::tile_delta`: difference of two tile positions. -/
structure tile_delta where
  ne : Int
  se : Int
deriving DecidableEq, Repr

/-- Modelled from the spec: `coord::tile::get_pos_on_chunk` is declared in `coord/tile.h`,
which is not among the sources. The spec calls its result the tile's position within the
chunk ("a coordinate within a chunk's local tile space"); a chunk is "a fixed-size
rectangular block of terrain tiles", so the position within the chunk is the position
reduced modulo the chunk width on both axes. The chunk width `tiles_per_chunk` is a
constant of the missing headers and is taken as a parameter. -/
def tile.get_pos_on_chunk (tiles_per_chunk : Nat) (pos : tile) : tile_delta :=
  { ne := pos.ne % (tiles_per_chunk : Int), se := pos.se % (tiles_per_chunk : Int) }

/-- Modelled from the spec: `coord::chunk::to_tile` is declared in `coord/chunk.h`, which is
not among the sources. It places a position-on-chunk into the frame of the chunk
("normalized ... into the owning chunk's local frame"): the origin tile of the chunk plus the
offset. -/
def chunk.to_tile (tiles_per_chunk : Nat) (c : chunk) (pos_on_chunk : tile_delta) : tile :=
  { ne := c.ne * (tiles_per_chunk : Int) + pos_on_chunk.ne,
    se := c.se * (tiles_per_chunk : Int) + pos_on_chunk.se }

end coord

/-! ## Utilities -/

namespace util

/-- Modelled from the spec: `util::mod<T>` lives in `util/misc.h`, which is not among the
sources. The spec: "a mathematical (always non-negative) modulo". A zero modulus is a
division by zero in C++ and has no result. -/
def mod (x m : Int) : Option Int :=
  if m = 0 then none else some (x % m)

end util

/-- Conversion of an integer value to `unsigned`: reduction modulo `2 ^ 32`. -/
def to_unsigned (z : Int) : Nat :=
  (z % (2 ^ 32 : Int)).toNat

/-! ## The chunk store: `std::map<coord::chunk, TerrainChunk *, coord_chunk_compare>` -/

/-- Lookup in an association list with unique keys. -/
def assoc_find : List (coord.chunk × Option Nat) → coord.chunk → Option (Option Nat)
  | [], _ => none
  | (k, v) :: rest, key => if k = key then some v else assoc_find rest key

/-- Insert or overwrite in an association list with unique keys. -/
def assoc_set : List (coord.chunk × Option Nat) → coord.chunk → Option Nat →
    List (coord.chunk × Option Nat)
  | [], key, val => [(key, val)]
  | (k, v) :: rest, key, val =>
    if k = key then (key, val) :: rest else (k, v) :: assoc_set rest key val

/-- The `std::map` that holds the chunks: its entries, one per key. -/
structure chunk_map where
  entries : List (coord.chunk × Option Nat)
deriving DecidableEq, Repr

/-- The method `std::map::find`: `none` stands for the `end()` iterator. -/
def chunk_map.find (m : chunk_map) (key : coord.chunk) : Option (Option Nat) :=
  assoc_find m.entries key

/-- The assignment `m[key] = val`: `std::map::operator[]` as the target of an assignment. -/
def chunk_map.assign (m : chunk_map) (key : coord.chunk) (val : Option Nat) : chunk_map :=
  { entries := assoc_set m.entries key val }

/-- The read `m[key]`: `std::map::operator[]` inserts a value-initialised entry (`nullptr`)
when the key is not present, and returns the mapped value. -/
def chunk_map.index (m : chunk_map) (key : coord.chunk) : Option Nat × chunk_map :=
  match m.find key with
  | some v => (v, m)
  | none => (none, m.assign key none)

/-! ## Chunks, textures, metadata records -/

/-- The struct `chunk_neighbors`: `TerrainChunk *neighbor[8]`. -/
structure chunk_neighbors where
  neighbor : Fin 8 → Option Nat

/-- The part of `TerrainChunk` the terrain touches: the back-reference to the owning
terrain and the neighbor array. -/
structure TerrainChunk where
  terrain : Option Nat
  neighbors : chunk_neighbors

/-- Modelled from the spec: `TerrainChunk::set_terrain` is defined in `terrain_chunk.cpp`,
which is not among the sources. The spec: "Install the back-reference from chunk to this
Terrain"; nothing else of the chunk is touched. -/
def TerrainChunk.set_terrain (c : TerrainChunk) (parent : Nat) : TerrainChunk :=
  { c with terrain := some parent }

/-- Modelled from the spec: the class `Texture` is not among the sources. A texture handle
records what it was created from: the file name, the two constructor arguments, and the
hotspot set by `fix_hotspots`. -/
structure Texture where
  filename : String
  use_metafile : Bool
  alphamasked : Bool
  hotspot : Int × Int
deriving DecidableEq, Repr

/-- The method `Texture::fix_hotspots(x, y)`. -/
def Texture.fix_hotspots (tex : Texture) (x y : Int) : Texture :=
  { tex with hotspot := (x, y) }

/-- The struct `terrain_type`: one line of the terrain meta file. -/
structure terrain_type where
  id : Nat
  terrain_id : Int
  slp_id : Int
  sound_id : Int
  blend_mode : Int
  blend_priority : Int
  angle_count : Int
  frame_count : Int
  terrain_dimensions0 : Int
  terrain_dimensions1 : Int
  terrain_replacement_id : Int
deriving DecidableEq, Repr

/-- The struct `blending_mode`: one line of the blending meta file. -/
structure blending_mode where
  id : Nat
  mode_id : Int
deriving DecidableEq, Repr

/-- The exception type `Error`, holding the formatted message. -/
structure Error where
  msg : String
deriving DecidableEq, Repr

/-- The conversion `%02d` of `util::format`: at least two characters, zero padded. -/
def format_02d (x : Int) : String :=
  if 0 ≤ x ∧ x < 10 then "0" ++ toString x else toString x

/-! ## The terrain -/

/-- The data members of `engine::Terrain`. -/
structure Terrain where
  chunks : chunk_map
  blending_enabled : Bool
  terrain_type_count : Nat
  blendmode_count : Nat
  textures : Nat → Option Texture
  blending_masks : Nat → Option Texture
  terrain_id_priority_map : Nat → Int
  terrain_id_blendmode_map : Nat → Int

/-- Body of the first constructor loop, for index `i`. -/
def Terrain.load_terrain_type (terrain_meta : Nat → terrain_type) (t : Terrain) (i : Nat) :
    Terrain :=
  let line := terrain_meta i
  let terraintex_filename := "age/raw/Data/terrain.drs/" ++ toString line.slp_id ++ ".slp.png"
  let new_texture : Texture :=
    { filename := terraintex_filename, use_metafile := true, alphamasked := true,
      hotspot := (0, 0) }
  let new_texture := new_texture.fix_hotspots 48 24
  { t with
    terrain_id_priority_map := Function.update t.terrain_id_priority_map i line.blend_priority
    terrain_id_blendmode_map := Function.update t.terrain_id_blendmode_map i line.blend_mode
    textures := Function.update t.textures i (some new_texture) }

/-- Body of the second constructor loop, for index `i`. -/
def Terrain.load_blending_mode (blending_meta : Nat → blending_mode) (t : Terrain) (i : Nat) :
    Terrain :=
  let line := blending_meta i
  let mask_filename := "age/alphamask/mode" ++ format_02d line.mode_id ++ ".png"
  let new_texture : Texture :=
    { filename := mask_filename, use_metafile := true, alphamasked := false,
      hotspot := (0, 0) }
  let new_texture := new_texture.fix_hotspots 48 24
  { t with blending_masks := Function.update t.blending_masks i (some new_texture) }

/-- The constructor `Terrain::Terrain` (the name `Terrain.Terrain` would hide the type). -/
def Terrain.create (terrain_meta_count : Nat) (terrain_meta : Nat → terrain_type)
    (blending_meta_count : Nat) (blending_meta : Nat → blending_mode) : Terrain :=
  let t : Terrain :=
    { chunks := { entries := [] }
      blending_enabled := true
      terrain_type_count := terrain_meta_count
      blendmode_count := blending_meta_count
      textures := fun _ => none
      blending_masks := fun _ => none
      terrain_id_priority_map := fun _ => 0
      terrain_id_blendmode_map := fun _ => 0 }
  let t := (List.range t.terrain_type_count).foldl (Terrain.load_terrain_type terrain_meta) t
  let t := (List.range t.blendmode_count).foldl (Terrain.load_blending_mode blending_meta) t
  t

/-- The method `Terrain::get_chunk`; the second component is the terrain after the call
(`operator[]` of `std::map` is not `const`). -/
def Terrain.get_chunk (t : Terrain) (position : coord.chunk) : Option Nat × Terrain :=
  if t.chunks.find position = none then
    (none, t)
  else
    ((t.chunks.index position).1, { t with chunks := (t.chunks.index position).2 })

/-- The table `neighbor_pos_delta[8][2]` of `Terrain::get_chunk_neighbors`. -/
def neighbor_pos_delta : Fin 8 → Fin 2 → Int :=
  ![![1, -1], ![1, 0], ![1, 1], ![0, 1], ![-1, 1], ![-1, 0], ![-1, -1], ![0, -1]]

/-- Body of the loop of `Terrain::get_chunk_neighbors`, for index `i`. -/
def Terrain.get_chunk_neighbors_step (position : coord.chunk)
    (acc : chunk_neighbors × Terrain) (i : Fin 8) : chunk_neighbors × Terrain :=
  let tmp_pos := position
  let tmp_pos := { tmp_pos with ne := tmp_pos.ne + neighbor_pos_delta i 0 }
  let tmp_pos := { tmp_pos with se := tmp_pos.se + neighbor_pos_delta i 1 }
  let r := acc.2.get_chunk tmp_pos
  ({ neighbor := Function.update acc.1.neighbor i r.1 }, r.2)

/-- The method `Terrain::get_chunk_neighbors`; the second component is the terrain after the
call. -/
def Terrain.get_chunk_neighbors (t : Terrain) (position : coord.chunk) :
    chunk_neighbors × Terrain :=
  (List.finRange 8).foldl (Terrain.get_chunk_neighbors_step position)
    ({ neighbor := fun _ => none }, t)

/-- The terrain object at address `terrain_ptr` together with the chunk objects. -/
structure World where
  terrain_ptr : Nat
  terrain : Terrain
  heap : Nat → TerrainChunk

/-- Body of the loop of `Terrain::attach_chunk`, for index `i`. -/
def attach_chunk_step (new_chunk : Nat) (neigh : chunk_neighbors)
    (heap : Nat → TerrainChunk) (i : Fin 8) : Nat → TerrainChunk :=
  match neigh.neighbor i with
  | some neighbor =>
    Function.update heap neighbor
      { heap neighbor with
        neighbors :=
          { neighbor :=
              Function.update (heap neighbor).neighbors.neighbor
                ⟨(i.val + 4) % 8, Nat.mod_lt _ (by decide)⟩ (some new_chunk) } }
  | none => heap

/-- The method `Terrain::attach_chunk`. -/
def World.attach_chunk (w : World) (new_chunk : Nat) (position : coord.chunk) : World :=
  let heap := Function.update w.heap new_chunk ((w.heap new_chunk).set_terrain w.terrain_ptr)
  let terrain := { w.terrain with chunks := w.terrain.chunks.assign position (some new_chunk) }
  let r := terrain.get_chunk_neighbors position
  let neigh := r.1
  let terrain := r.2
  { w with
    terrain := terrain
    heap := (List.finRange 8).foldl (attach_chunk_step new_chunk neigh) heap }

/-- A sequence of `attach_chunk` calls, in order. -/
def World.attach_all (w : World) (calls : List (Nat × coord.chunk)) : World :=
  calls.foldl (fun w c => w.attach_chunk c.1 c.2) w

/-- The method `Terrain::valid_terrain`. -/
def Terrain.valid_terrain (t : Terrain) (terrain_id : Nat) : Except Error Bool :=
  if terrain_id ≥ t.terrain_type_count then
    Except.error { msg := "requested terrain_id is out of range: " ++ toString terrain_id }
  else
    Except.ok true

/-- The method `Terrain::valid_mask`. -/
def Terrain.valid_mask (t : Terrain) (mask_id : Nat) : Except Error Bool :=
  if mask_id ≥ t.blendmode_count then
    Except.error { msg := "requested mask_id is out of range: " ++ toString mask_id }
  else
    Except.ok true

/-- The method `Terrain::priority`. -/
def Terrain.priority (t : Terrain) (terrain_id : Nat) : Except Error Int := do
  let _ ← t.valid_terrain terrain_id
  return t.terrain_id_priority_map terrain_id

/-- The method `Terrain::blendmode`. -/
def Terrain.blendmode (t : Terrain) (terrain_id : Nat) : Except Error Int := do
  let _ ← t.valid_terrain terrain_id
  return t.terrain_id_blendmode_map terrain_id

/-- The method `Terrain::texture`. -/
def Terrain.texture (t : Terrain) (terrain_id : Nat) : Except Error (Option Texture) := do
  let _ ← t.valid_terrain terrain_id
  return t.textures terrain_id

/-- The method `Terrain::blending_mask`. -/
def Terrain.blending_mask (t : Terrain) (mask_id : Nat) : Except Error (Option Texture) := do
  let _ ← t.valid_mask mask_id
  return t.blending_masks mask_id

/-- The method `Terrain::get_subtexture_id`; `none` when the computation has no result
(modulo by zero). The chunk width `tiles_per_chunk` is a constant of the missing
coordinate headers. -/
def Terrain.get_subtexture_id (tiles_per_chunk : Nat) (pos : coord.tile) (atlas_size : Nat)
    (chunk_pos : coord.chunk) : Option Nat := do
  let result : Nat := 0
  let pos := chunk_pos.to_tile tiles_per_chunk (pos.get_pos_on_chunk tiles_per_chunk)
  let m_se ← util.mod pos.se (atlas_size : Int)
  let result := to_unsigned ((result : Int) + m_se)
  let result := to_unsigned ((result : Int) * (atlas_size : Int))
  let m_ne ← util.mod pos.ne (atlas_size : Int)
  let result := to_unsigned ((result : Int) + m_ne)
  return result

/-- The method `Terrain::get_blending_mode`. -/
def Terrain.get_blending_mode (t : Terrain) (base_id neighbor_id : Nat) : Except Error Int := do
  let base_mode ← t.blendmode base_id
  let neighbor_mode ← t.blendmode neighbor_id
  if neighbor_mode > base_mode then
    return neighbor_mode
  else
    return base_mode

/-! ## Vocabulary of the statements -/

/-- The offset table as the design document prints it: direction, then the step on the
first and on the second chunk axis. -/
def spec_offset : Fin 8 → Int × Int
  | ⟨0, _⟩ => (1, -1)
  | ⟨1, _⟩ => (1, 0)
  | ⟨2, _⟩ => (1, 1)
  | ⟨3, _⟩ => (0, 1)
  | ⟨4, _⟩ => (-1, 1)
  | ⟨5, _⟩ => (-1, 0)
  | ⟨6, _⟩ => (-1, -1)
  | ⟨7, _⟩ => (0, -1)

/-- The opposite compass direction, `(d + 4) mod 8`. -/
def opposite (d : Fin 8) : Fin 8 :=
  ⟨(d.val + 4) % 8, Nat.mod_lt _ (by decide)⟩

/-- The position one step from `p` in direction `d`, by the table of the code. -/
def step (p : coord.chunk) (d : Fin 8) : coord.chunk :=
  { ne := p.ne + neighbor_pos_delta d 0, se := p.se + neighbor_pos_delta d 1 }

/-- A world right after construction of the terrain: the store is the one the constructor
leaves, and the chunk objects are the given ones. -/
def World.fresh (terrain_ptr : Nat) (n : Nat) (terrain_meta : Nat → terrain_type) (m : Nat)
    (blending_meta : Nat → blending_mode) (heap : Nat → TerrainChunk) : World :=
  { terrain_ptr := terrain_ptr
    terrain := Terrain.create n terrain_meta m blending_meta
    heap := heap }

/-- The chunk of the most recent call at position `p` in a sequence of attach calls. -/
def last_attached (calls : List (Nat × coord.chunk)) (p : coord.chunk) : Option Nat :=
  (calls.reverse.find? (fun c => c.2 = p)).map (fun c => c.1)

/-- The chunk a tile lies in: the floor of the tile position divided by the chunk width, on
both axes. -/
def chunk_of (tiles_per_chunk : Nat) (pos : coord.tile) : coord.chunk :=
  { ne := pos.ne / (tiles_per_chunk : Int), se := pos.se / (tiles_per_chunk : Int) }

/-- A tile position shifted by `k * n` along both tile axes. -/
def shift_tile (pos : coord.tile) (k : Int) (n : Nat) : coord.tile :=
  { ne := pos.ne + k * (n : Int), se := pos.se + k * (n : Int) }

/-- The index formula of the design document: `(axis_B mod n) * n + (axis_A mod n)` with the
mathematical modulo, as an `unsigned` value. -/
def spec_subtexture_index (axis_A axis_B : Int) (n : Nat) : Nat :=
  (((axis_B % (n : Int)) * (n : Int) + axis_A % (n : Int)) % (2 ^ 32 : Int)).toNat

/-- The adjacency graph of the chunk objects is symmetric: a link from `x` to `y` in direction
`d` is answered by a link from `y` to `x` in the opposite direction. -/
def World.symmetric (w : World) : Prop :=
  ∀ (x y : Nat) (d : Fin 8),
    (w.heap x).neighbors.neighbor d = some y →
      (w.heap y).neighbors.neighbor (opposite d) = some x

/-- A chunk object whose eight neighbor slots are all empty. -/
def TerrainChunk.blank : TerrainChunk :=
  { terrain := none, neighbors := { neighbor := fun _ => none } }

/-- A terrain built from no metadata records at all, and chunk objects that are all blank. -/
def World.blank : World :=
  World.fresh 0 0 (fun _ => ⟨0, 0, 0, 0, 0, 0, 0, 0, 0, 0, 0⟩) 0 (fun _ => ⟨0, 0⟩)
    (fun _ => TerrainChunk.blank)

/-- The registry of the blend scenario of the design document: type 0 with priority 1 and
blend mode 0, type 1 with priority 2 and blend mode 1; no blend-mode records. -/
def two_type_terrain : Terrain :=
  Terrain.create 2
    (fun i =>
      if i = 0 then
        { id := 0, terrain_id := 0, slp_id := 0, sound_id := 0, blend_mode := 0,
          blend_priority := 1, angle_count := 0, frame_count := 0, terrain_dimensions0 := 0,
          terrain_dimensions1 := 0, terrain_replacement_id := 0 }
      else
        { id := 1, terrain_id := 1, slp_id := 1, sound_id := 0, blend_mode := 1,
          blend_priority := 2, angle_count := 0, frame_count := 0, terrain_dimensions0 := 0,
          terrain_dimensions1 := 0, terrain_replacement_id := 0 })
    0 (fun _ => ⟨0, 0⟩)

/-- The call `get_chunk_neighbors(position)` seen from the whole world: the result, and the
world after the call (the method reads the store only and dereferences no chunk pointer). -/
def World.get_chunk_neighbors (w : World) (position : coord.chunk) : chunk_neighbors × World :=
  ((w.terrain.get_chunk_neighbors position).1,
    { w with terrain := (w.terrain.get_chunk_neighbors position).2 })

/-- The texture handle the constructor creates for a terrain record. -/
def terrain_texture_of (line : terrain_type) : Texture :=
  { filename := "age/raw/Data/terrain.drs/" ++ toString line.slp_id ++ ".slp.png",
    use_metafile := true, alphamasked := true, hotspot := (48, 24) }

/-- The mask handle the constructor creates for a blend record. -/
def mask_texture_of (line : blending_mode) : Texture :=
  { filename := "age/alphamask/mode" ++ format_02d line.mode_id ++ ".png",
    use_metafile := true, alphamasked := false, hotspot := (48, 24) }

/-- The error raised by `valid_terrain` for an id, as the code formats it. -/
def terrain_range_error (terrain_id : Nat) : Error :=
  { msg := "requested terrain_id is out of range: " ++ toString terrain_id }

/-- The error raised by `valid_mask` for an id, as the code formats it. -/
def mask_range_error (mask_id : Nat) : Error :=
  { msg := "requested mask_id is out of range: " ++ toString mask_id }

/-- The links of the stored chunks are sound: whenever the chunk stored at `p` has a chunk in
slot `d`, that chunk is the one stored one step from `p` in direction `d`. -/
def World.link_sound (w : World) : Prop :=
  ∀ (p : coord.chunk) (X : Nat) (d : Fin 8) (Y : Nat),
    (w.terrain.get_chunk p).1 = some X → (w.heap X).neighbors.neighbor d = some Y →
      (w.terrain.get_chunk (step p d)).1 = some Y

/-- A sequence of attach calls in which each chunk object is attached at most once (it is not
among the chunks `attached` before) and has all eight neighbor slots empty when it is
attached. -/
def World.admissible : World → List Nat → List (Nat × coord.chunk) → Prop
  | _, _, [] => True
  | w, attached, c :: rest =>
    c.1 ∉ attached ∧ (∀ j, (w.heap c.1).neighbors.neighbor j = none) ∧
      World.admissible (w.attach_chunk c.1 c.2) (c.1 :: attached) rest

/-- The invariant behind link soundness: the links of stored chunks point to what is stored,
a chunk is stored at one position at most, and every stored chunk is among the attached
ones. -/
def World.attach_invariant (w : World) (attached : List Nat) : Prop :=
  (∀ (p : coord.chunk) (X : Nat) (d : Fin 8) (Y : Nat),
    w.terrain.chunks.find p = some (some X) → (w.heap X).neighbors.neighbor d = some Y →
      w.terrain.chunks.find (step p d) = some (some Y)) ∧
  (∀ (p q : coord.chunk) (X : Nat),
    w.terrain.chunks.find p = some (some X) → w.terrain.chunks.find q = some (some X) → p = q) ∧
  (∀ (p : coord.chunk) (X : Nat), w.terrain.chunks.find p = some (some X) → X ∈ attached)

/-! ## The metadata line parsers: `sscanf` on the formats of `fill` -/

/-- A directive of a `sscanf` format string: the conversions `%u` and `%d`, or an ordinary
character that has to match the input. -/
inductive scan_directive where
  | conv_u : scan_directive
  | conv_d : scan_directive
  | ordinary (c : Char) : scan_directive
deriving DecidableEq, Repr

/-- Reading of a format string into directives (formats without white space, with the
conversions `%u` and `%d` only, as in `terrain.cpp`). -/
def parse_format : List Char → List scan_directive
  | [] => []
  | [c] => [scan_directive.ordinary c]
  | c :: d :: rest =>
    if c = '%' ∧ d = 'u' then scan_directive.conv_u :: parse_format rest
    else if c = '%' ∧ d = 'd' then scan_directive.conv_d :: parse_format rest
    else scan_directive.ordinary c :: parse_format (d :: rest)

/-- The white-space characters of `isspace` in the C locale: space and the codes 9 to 13. -/
def is_space (c : Char) : Bool :=
  decide (c.toNat = 32 ∨ (9 ≤ c.toNat ∧ c.toNat ≤ 13))

/-- The decimal digits. -/
def is_digit (c : Char) : Bool :=
  decide (48 ≤ c.toNat ∧ c.toNat ≤ 57)

/-- Input white space is skipped before a conversion. -/
def skip_space : List Char → List Char
  | [] => []
  | c :: rest => if is_space c then skip_space rest else c :: rest

/-- The longest run of digits at the head of the input, and the input after it. -/
def take_digits : List Char → List Char × List Char
  | [] => ([], [])
  | c :: rest =>
    if is_digit c then ((c :: (take_digits rest).1), (take_digits rest).2)
    else ([], c :: rest)

/-- The number a run of decimal digits denotes. -/
def digits_value (ds : List Char) : Nat :=
  ds.foldl (fun acc c => 10 * acc + (c.toNat - 48)) 0

/-- What a decimal conversion finds in the input. -/
inductive scan_outcome where
  | converted (negative : Bool) (magnitude : Nat) (rest : List Char) : scan_outcome
  | matching_failure : scan_outcome
  | input_failure : scan_outcome
deriving DecidableEq, Repr

/-- The input item of `%u` and `%d`: white space is skipped, then an optional sign and a
non-empty run of decimal digits is consumed. An input that ends before the item starts is an
input failure; an item without digits is a matching failure. -/
def scan_decimal (s : List Char) : scan_outcome :=
  match skip_space s with
  | [] => scan_outcome.input_failure
  | c :: rest =>
    if c = '-' then
      if (take_digits rest).1 = [] then scan_outcome.matching_failure
      else scan_outcome.converted true (digits_value (take_digits rest).1) (take_digits rest).2
    else if c = '+' then
      if (take_digits rest).1 = [] then scan_outcome.matching_failure
      else scan_outcome.converted false (digits_value (take_digits rest).1) (take_digits rest).2
    else
      if (take_digits (c :: rest)).1 = [] then scan_outcome.matching_failure
      else
        scan_outcome.converted false (digits_value (take_digits (c :: rest)).1)
          (take_digits (c :: rest)).2

/-- The return value of `sscanf` when a directive runs into the end of the input: `EOF`
(-1) before the first conversion has completed, the number of assignments after it. -/
def input_failure_result (got : List Int) : Int :=
  if got = [] then -1 else (got.length : Int)

/-- The directives of `sscanf` run in order on the input; `got` are the values assigned so
far. The result is the return value and the assigned values, or `none` when a converted value
does not fit the object it is stored in (`unsigned` for `%u`, `int` for `%d`), which C leaves
undefined. -/
def sscanf_from : List scan_directive → List Char → List Int → Option (Int × List Int)
  | [], _, got => some ((got.length : Int), got)
  | scan_directive.ordinary c :: fmt, input, got =>
    match input with
    | [] => some (input_failure_result got, got)
    | c1 :: rest =>
      if c1 = c then sscanf_from fmt rest got else some ((got.length : Int), got)
  | scan_directive.conv_u :: fmt, input, got =>
    match scan_decimal input with
    | scan_outcome.input_failure => some (input_failure_result got, got)
    | scan_outcome.matching_failure => some ((got.length : Int), got)
    | scan_outcome.converted negative magnitude rest =>
      if (negative = false ∨ magnitude = 0) ∧ magnitude < 2 ^ 32 then
        sscanf_from fmt rest (got ++ [(magnitude : Int)])
      else none
  | scan_directive.conv_d :: fmt, input, got =>
    match scan_decimal input with
    | scan_outcome.input_failure => some (input_failure_result got, got)
    | scan_outcome.matching_failure => some ((got.length : Int), got)
    | scan_outcome.converted negative magnitude rest =>
      if negative = true then
        if magnitude ≤ 2 ^ 31 then sscanf_from fmt rest (got ++ [-(magnitude : Int)]) else none
      else
        if magnitude < 2 ^ 31 then sscanf_from fmt rest (got ++ [(magnitude : Int)]) else none

/-- The call `sscanf(input, format, ...)`. -/
def sscanf (input : List Char) (format : String) : Option (Int × List Int) :=
  sscanf_from (parse_format format.toList) input []

/-- The pointer arguments of the `sscanf` call in `terrain_type::fill`: the `k`-th assigned
value goes to the `k`-th field, the other fields keep their content. -/
def terrain_type.store (self : terrain_type) (got : List Int) : terrain_type :=
  { id := (got[0]?.map Int.toNat).getD self.id
    terrain_id := got[1]?.getD self.terrain_id
    slp_id := got[2]?.getD self.slp_id
    sound_id := got[3]?.getD self.sound_id
    blend_mode := got[4]?.getD self.blend_mode
    blend_priority := got[5]?.getD self.blend_priority
    angle_count := got[6]?.getD self.angle_count
    frame_count := got[7]?.getD self.frame_count
    terrain_dimensions0 := got[8]?.getD self.terrain_dimensions0
    terrain_dimensions1 := got[9]?.getD self.terrain_dimensions1
    terrain_replacement_id := got[10]?.getD self.terrain_replacement_id }

/-- The method `terrain_type::fill`: the return code and the record after the call;
`by_line` holds the characters of the line before the terminating NUL. -/
def terrain_type.fill (self : terrain_type) (by_line : List Char) :
    Option (Int × terrain_type) :=
  match sscanf by_line "%u=%d,%d,%d,%d,%d,%d,%d,%d,%d,%d" with
  | none => none
  | some (ret, got) => if ret ≠ 0 then some (0, self.store got) else some (-1, self.store got)

/-- The pointer arguments of the `sscanf` call in `blending_mode::fill`. -/
def blending_mode.store (self : blending_mode) (got : List Int) : blending_mode :=
  { id := (got[0]?.map Int.toNat).getD self.id
    mode_id := got[1]?.getD self.mode_id }

/-- The method `blending_mode::fill`: the return code and the record after the call. -/
def blending_mode.fill (self : blending_mode) (by_line : List Char) :
    Option (Int × blending_mode) :=
  match sscanf by_line "%u=%d" with
  | none => none
  | some (ret, got) => if ret ≠ 0 then some (0, self.store got) else some (-1, self.store got)

/-- The text of an optionally signed decimal integer: a minus sign when `negative`, then the
digits. -/
def signed_text (negative : Bool) (digits : List Char) : List Char :=
  if negative then '-' :: digits else digits

/-- The value an optionally signed decimal integer denotes. -/
def signed_value (negative : Bool) (digits : List Char) : Int :=
  if negative then -(digits_value digits : Int) else (digits_value digits : Int)

/-- A non-empty run of decimal digits. -/
def is_numeral (digits : List Char) : Prop :=
  digits ≠ [] ∧ ∀ c ∈ digits, is_digit c = true

/-- The text of an unsigned decimal integer that fits `unsigned`. -/
def is_unsigned_text (digits : List Char) : Prop :=
  is_numeral digits ∧ digits_value digits < 2 ^ 32

/-- The text of a signed decimal integer that fits `int`. -/
def is_int_text (negative : Bool) (digits : List Char) : Prop :=
  is_numeral digits ∧ -(2 ^ 31 : Int) ≤ signed_value negative digits ∧
    signed_value negative digits < (2 ^ 31 : Int)

/-- A record with every field zero, the target of the parsing examples. -/
def terrain_type.zero : terrain_type :=
  ⟨0, 0, 0, 0, 0, 0, 0, 0, 0, 0, 0⟩

/-! ## The chunk store -/

theorem assoc_find_set (l : List (coord.chunk × Option Nat)) (k q : coord.chunk)
    (v : Option Nat) :
    assoc_find (assoc_set l k v) q = if k = q then some v else assoc_find l q := by
  induction l with
  | nil => simp [assoc_set, assoc_find]
  | cons hd tl ih =>
    obtain ⟨k1, v1⟩ := hd
    by_cases h1 : k1 = k
    · subst h1
      by_cases h2 : k1 = q <;> simp [assoc_set, assoc_find, h2]
    · by_cases h2 : k = q
      · subst h2
        simp [assoc_set, assoc_find, h1, ih]
      · by_cases h3 : k1 = q
        · subst h3
          simp [assoc_set, assoc_find, h1, h2]
        · simp [assoc_set, assoc_find, h1, h2, h3, ih]

theorem find_assign (m : chunk_map) (k q : coord.chunk) (v : Option Nat) :
    (m.assign k v).find q = if k = q then some v else m.find q := by
  simp [chunk_map.assign, chunk_map.find, assoc_find_set]

theorem get_chunk_snd (t : Terrain) (p : coord.chunk) : (t.get_chunk p).2 = t := by
  unfold Terrain.get_chunk
  split
  · rfl
  · next h =>
    obtain ⟨v, hv⟩ := Option.ne_none_iff_exists'.mp h
    simp [chunk_map.index, hv]

theorem get_chunk_fst (t : Terrain) (p : coord.chunk) :
    (t.get_chunk p).1 = (t.chunks.find p).join := by
  unfold Terrain.get_chunk
  split
  · next h => simp [h]
  · next h =>
    obtain ⟨v, hv⟩ := Option.ne_none_iff_exists'.mp h
    simp [chunk_map.index, hv]

/-! ## The neighbor resolver -/

theorem get_chunk_neighbors_fold (position : coord.chunk) (l : List (Fin 8))
    (acc : chunk_neighbors × Terrain) :
    (l.foldl (Terrain.get_chunk_neighbors_step position) acc).2 = acc.2 ∧
    ∀ i, (l.foldl (Terrain.get_chunk_neighbors_step position) acc).1.neighbor i =
      if i ∈ l then (acc.2.get_chunk (step position i)).1 else acc.1.neighbor i := by
  induction l generalizing acc with
  | nil => simp
  | cons a tl ih =>
    have hs : (Terrain.get_chunk_neighbors_step position acc a).2 = acc.2 := by
      simp [Terrain.get_chunk_neighbors_step, get_chunk_snd]
    have hf : ∀ i, (Terrain.get_chunk_neighbors_step position acc a).1.neighbor i =
        if i = a then (acc.2.get_chunk (step position a)).1 else acc.1.neighbor i := by
      intro i
      simp [Terrain.get_chunk_neighbors_step, step, Function.update_apply]
    obtain ⟨ih1, ih2⟩ := ih (Terrain.get_chunk_neighbors_step position acc a)
    refine ⟨by rw [List.foldl_cons, ih1, hs], ?_⟩
    intro i
    rw [List.foldl_cons, ih2 i, hs, hf i]
    by_cases h1 : i ∈ tl
    · simp [h1]
    · by_cases h2 : i = a
      · subst h2
        simp
      · simp [h1, h2]

theorem get_chunk_neighbors_snd (t : Terrain) (p : coord.chunk) :
    (t.get_chunk_neighbors p).2 = t :=
  (get_chunk_neighbors_fold p (List.finRange 8) _).1

theorem get_chunk_neighbors_fst (t : Terrain) (p : coord.chunk) (i : Fin 8) :
    (t.get_chunk_neighbors p).1.neighbor i = (t.chunks.find (step p i)).join := by
  have h := (get_chunk_neighbors_fold p (List.finRange 8) ({ neighbor := fun _ => none }, t)).2 i
  unfold Terrain.get_chunk_neighbors
  rw [h]
  simp [List.mem_finRange, get_chunk_fst]

theorem neighbor_pos_delta_ne_zero :
    ∀ i : Fin 8, ¬ (neighbor_pos_delta i 0 = 0 ∧ neighbor_pos_delta i 1 = 0) := by
  decide

theorem step_ne_self (p : coord.chunk) (i : Fin 8) : step p i ≠ p := by
  intro h
  have h1 : p.ne + neighbor_pos_delta i 0 = p.ne := congrArg coord.chunk.ne h
  have h2 : p.se + neighbor_pos_delta i 1 = p.se := congrArg coord.chunk.se h
  exact neighbor_pos_delta_ne_zero i ⟨by omega, by omega⟩

theorem opposite_opposite (d : Fin 8) : opposite (opposite d) = d := by
  revert d
  decide

theorem opposite_injective (i j : Fin 8) (h : opposite i = opposite j) : i = j := by
  revert i j
  decide

theorem step_opposite (p : coord.chunk) (d : Fin 8) : step (step p d) (opposite d) = p := by
  have h : ∀ d : Fin 8, neighbor_pos_delta (opposite d) 0 = - neighbor_pos_delta d 0 ∧
      neighbor_pos_delta (opposite d) 1 = - neighbor_pos_delta d 1 := by decide
  obtain ⟨h0, h1⟩ := h d
  cases p
  simp [step, h0, h1]

/-! ## The attach protocol -/

theorem attach_chunk_fold (b : Nat) (neigh : chunk_neighbors) (l : List (Fin 8))
    (heap : Nat → TerrainChunk) (a : Nat) :
    ((l.foldl (attach_chunk_step b neigh) heap) a).terrain = (heap a).terrain ∧
    ∀ j, ((l.foldl (attach_chunk_step b neigh) heap) a).neighbors.neighbor j =
      if ∃ i ∈ l, neigh.neighbor i = some a ∧ opposite i = j then some b
      else (heap a).neighbors.neighbor j := by
  induction l generalizing heap with
  | nil => simp
  | cons x tl ih =>
    have hs : (attach_chunk_step b neigh heap x a).terrain = (heap a).terrain := by
      rcases hn : neigh.neighbor x with _ | n
      · simp only [attach_chunk_step, hn]
      · simp only [attach_chunk_step, hn]
        by_cases hna : a = n
        · subst hna
          simp
        · simp [Function.update_apply, hna]
    have hf : ∀ j, (attach_chunk_step b neigh heap x a).neighbors.neighbor j =
        if neigh.neighbor x = some a ∧ opposite x = j then some b
        else (heap a).neighbors.neighbor j := by
      intro j
      rcases hn : neigh.neighbor x with _ | n
      · simp only [attach_chunk_step, hn]
        simp
      · simp only [attach_chunk_step, hn]
        by_cases hna : a = n
        · subst hna
          by_cases hj : opposite x = j
          · subst hj
            simp [opposite]
          · have hj3 : ¬ j = (⟨(x.val + 4) % 8, Nat.mod_lt _ (by decide)⟩ : Fin 8) :=
              fun h => hj h.symm
            simp [hj, Function.update_apply, hj3]
        · have hna2 : ¬ n = a := fun h => hna h.symm
          simp [Function.update_apply, hna, hna2]
    obtain ⟨ih1, ih2⟩ := ih (attach_chunk_step b neigh heap x)
    refine ⟨by rw [List.foldl_cons, ih1, hs], ?_⟩
    intro j
    rw [List.foldl_cons, ih2 j, hf j]
    by_cases h1 : ∃ i ∈ tl, neigh.neighbor i = some a ∧ opposite i = j
    · have h2 : ∃ i ∈ x :: tl, neigh.neighbor i = some a ∧ opposite i = j := by
        obtain ⟨i, hi, hr⟩ := h1
        exact ⟨i, List.mem_cons_of_mem _ hi, hr⟩
      rw [if_pos h1, if_pos h2]
    · rw [if_neg h1]
      by_cases h3 : neigh.neighbor x = some a ∧ opposite x = j
      · rw [if_pos h3, if_pos ⟨x, List.mem_cons_self _ _, h3⟩]
      · rw [if_neg h3, if_neg]
        rintro ⟨i, hi, hr⟩
        rcases List.mem_cons.mp hi with rfl | hi
        · exact h3 hr
        · exact h1 ⟨i, hi, hr⟩

theorem attach_chunk_terrain (w : World) (b : Nat) (p : coord.chunk) :
    (w.attach_chunk b p).terrain =
      { w.terrain with chunks := w.terrain.chunks.assign p (some b) } := by
  simp only [World.attach_chunk]
  exact get_chunk_neighbors_snd _ p

theorem attach_chunk_terrain_ptr (w : World) (b : Nat) (p : coord.chunk) :
    (w.attach_chunk b p).terrain_ptr = w.terrain_ptr := by
  simp only [World.attach_chunk]

theorem attach_chunk_find (w : World) (b : Nat) (p q : coord.chunk) :
    (w.attach_chunk b p).terrain.chunks.find q =
      if p = q then some (some b) else w.terrain.chunks.find q := by
  rw [attach_chunk_terrain]
  exact find_assign _ _ _ _

theorem attach_chunk_slot (w : World) (b : Nat) (p : coord.chunk) (a : Nat) (j : Fin 8) :
    ((w.attach_chunk b p).heap a).neighbors.neighbor j =
      if ∃ i, w.terrain.chunks.find (step p i) = some (some a) ∧ opposite i = j then some b
      else (w.heap a).neighbors.neighbor j := by
  have h := (attach_chunk_fold b
    ({ w.terrain with chunks := w.terrain.chunks.assign p (some b) }.get_chunk_neighbors p).1
    (List.finRange 8)
    (Function.update w.heap b ((w.heap b).set_terrain w.terrain_ptr)) a).2 j
  have hb : (Function.update w.heap b ((w.heap b).set_terrain w.terrain_ptr) a).neighbors =
      (w.heap a).neighbors := by
    by_cases hab : a = b
    · subst hab
      simp [TerrainChunk.set_terrain]
    · simp [Function.update_apply, hab]
  have hn : ∀ i, ({ w.terrain with chunks := w.terrain.chunks.assign p (some b) }.get_chunk_neighbors
      p).1.neighbor i = (w.terrain.chunks.find (step p i)).join := by
    intro i
    rw [get_chunk_neighbors_fst]
    simp only [find_assign]
    rw [if_neg (fun h => step_ne_self p i h.symm)]
  simp only [World.attach_chunk]
  rw [h, hb]
  simp only [hn, List.mem_finRange, true_and, Option.join_eq_some]

/-! ## The constructor and sequences of attach calls -/

theorem load_terrain_type_fold_chunks (terrain_meta : Nat → terrain_type) (l : List Nat)
    (t : Terrain) :
    (l.foldl (Terrain.load_terrain_type terrain_meta) t).chunks = t.chunks ∧
    (l.foldl (Terrain.load_terrain_type terrain_meta) t).terrain_type_count =
      t.terrain_type_count ∧
    (l.foldl (Terrain.load_terrain_type terrain_meta) t).blendmode_count = t.blendmode_count := by
  induction l generalizing t with
  | nil => simp
  | cons a tl ih =>
    obtain ⟨h1, h2, h3⟩ := ih (Terrain.load_terrain_type terrain_meta t a)
    rw [List.foldl_cons, h1, h2, h3]
    simp [Terrain.load_terrain_type]

theorem load_blending_mode_fold_chunks (blending_meta : Nat → blending_mode) (l : List Nat)
    (t : Terrain) :
    (l.foldl (Terrain.load_blending_mode blending_meta) t).chunks = t.chunks ∧
    (l.foldl (Terrain.load_blending_mode blending_meta) t).terrain_type_count =
      t.terrain_type_count ∧
    (l.foldl (Terrain.load_blending_mode blending_meta) t).blendmode_count = t.blendmode_count := by
  induction l generalizing t with
  | nil => simp
  | cons a tl ih =>
    obtain ⟨h1, h2, h3⟩ := ih (Terrain.load_blending_mode blending_meta t a)
    rw [List.foldl_cons, h1, h2, h3]
    simp [Terrain.load_blending_mode]

theorem create_chunks (n : Nat) (terrain_meta : Nat → terrain_type) (m : Nat)
    (blending_meta : Nat → blending_mode) :
    (Terrain.create n terrain_meta m blending_meta).chunks = { entries := [] } := by
  simp only [Terrain.create]
  rw [(load_blending_mode_fold_chunks _ _ _).1, (load_terrain_type_fold_chunks _ _ _).1]

theorem fresh_find (tp n : Nat) (terrain_meta : Nat → terrain_type) (m : Nat)
    (blending_meta : Nat → blending_mode) (heap : Nat → TerrainChunk) (q : coord.chunk) :
    (World.fresh tp n terrain_meta m blending_meta heap).terrain.chunks.find q = none := by
  simp only [World.fresh]
  rw [create_chunks]
  rfl

theorem attach_all_append (w : World) (calls : List (Nat × coord.chunk)) (c : Nat × coord.chunk) :
    w.attach_all (calls ++ [c]) = (w.attach_all calls).attach_chunk c.1 c.2 := by
  simp [World.attach_all, List.foldl_append]

theorem last_attached_append (calls : List (Nat × coord.chunk)) (c : Nat × coord.chunk)
    (p : coord.chunk) :
    last_attached (calls ++ [c]) p = if c.2 = p then some c.1 else last_attached calls p := by
  by_cases h : c.2 = p
  · simp [last_attached, List.find?_cons, h]
  · simp [last_attached, List.find?_cons, h]

theorem attach_all_find (w : World) (calls : List (Nat × coord.chunk)) (p : coord.chunk) :
    (w.attach_all calls).terrain.chunks.find p =
      match last_attached calls p with
      | some c => some (some c)
      | none => w.terrain.chunks.find p := by
  induction calls using List.reverseRecOn with
  | nil => simp [World.attach_all, last_attached]
  | append_singleton l c ih =>
    rw [attach_all_append, attach_chunk_find, last_attached_append, ih]
    by_cases h : c.2 = p
    · simp [h]
    · simp [h]

theorem step_back_unique (p : coord.chunk) (d i : Fin 8) (h : step (step p d) i = p) :
    i = opposite d := by
  have h1 : p.ne + neighbor_pos_delta d 0 + neighbor_pos_delta i 0 = p.ne :=
    congrArg coord.chunk.ne h
  have h2 : p.se + neighbor_pos_delta d 1 + neighbor_pos_delta i 1 = p.se :=
    congrArg coord.chunk.se h
  have key : ∀ d i : Fin 8, neighbor_pos_delta i 0 = - neighbor_pos_delta d 0 →
      neighbor_pos_delta i 1 = - neighbor_pos_delta d 1 → i = opposite d := by decide
  exact key d i (by omega) (by omega)

/-! ## The sub-texture indexer -/

theorem to_unsigned_cast (z : Int) : ((to_unsigned z : Nat) : Int) = z % (2 ^ 32 : Int) := by
  unfold to_unsigned
  exact Int.toNat_of_nonneg (Int.emod_nonneg _ (by norm_num))

theorem unsigned_chain (a b n : Int) :
    to_unsigned ((to_unsigned ((to_unsigned (((0 : Nat) : Int) + a) : Int) * n) : Int) + b) =
      ((a * n + b) % (2 ^ 32 : Int)).toNat := by
  rw [to_unsigned_cast, to_unsigned_cast]
  unfold to_unsigned
  congr 1
  have h1 : (((0 : Nat) : Int) + a) % (2 ^ 32 : Int) ≡ a [ZMOD (2 ^ 32 : Int)] := by
    simpa using Int.mod_modEq a (2 ^ 32 : Int)
  have h2 : ((((0 : Nat) : Int) + a) % (2 ^ 32 : Int) * n) % (2 ^ 32 : Int) ≡ a * n
      [ZMOD (2 ^ 32 : Int)] := (Int.mod_modEq _ _).trans (h1.mul_right n)
  exact h2.add_right b

theorem get_subtexture_id_eq (S : Nat) (pos : coord.tile) (N : Nat) (c : coord.chunk)
    (hN : 1 ≤ N) :
    Terrain.get_subtexture_id S pos N c =
      some ((((c.to_tile S (pos.get_pos_on_chunk S)).se % (N : Int)) * (N : Int) +
        (c.to_tile S (pos.get_pos_on_chunk S)).ne % (N : Int)) % (2 ^ 32 : Int)).toNat := by
  have hN0 : ¬ ((N : Int) = 0) := by omega
  simp only [Terrain.get_subtexture_id, util.mod, hN0, if_false]
  exact congrArg some (unsigned_chain _ _ _)

theorem shifted_pos_mod (S N : Nat) (c x k : Int)
    (h : (N : Int) ∣ (S : Int) ∨ (x + k * N) / (S : Int) = x / (S : Int)) :
    (c * S + (x + k * N) % (S : Int)) % (N : Int) = (c * S + x % (S : Int)) % (N : Int) := by
  have e1 : (x + k * N) % (S : Int) = (x + k * N) - S * ((x + k * N) / (S : Int)) := by
    have := Int.emod_add_ediv (x + k * N) (S : Int)
    omega
  have e2 : x % (S : Int) = x - S * (x / (S : Int)) := by
    have := Int.emod_add_ediv x (S : Int)
    omega
  rw [e1, e2]
  rcases h with h | h
  · obtain ⟨r, hr⟩ := h
    apply Int.ModEq.eq
    apply (Int.modEq_iff_dvd).mpr
    refine ⟨-k + r * ((x + k * N) / (S : Int)) - r * (x / (S : Int)), ?_⟩
    rw [hr]
    ring
  · rw [h]
    apply Int.ModEq.eq
    apply (Int.modEq_iff_dvd).mpr
    exact ⟨-k, by ring⟩

/-! ## Claims on the adjacency graph -/

/-- C1: the symmetry invariant fails on the code. On a freshly constructed terrain with blank
chunk objects, after attaching chunk 1 at (0,0) and chunk 2 at (1,-1), chunk 1 records chunk 2
in direction 0 but chunk 2 does not record chunk 1 in direction 4: the adjacency graph is not
symmetric. -/
theorem symmetry_broken_by_second_attach :
    ¬ (World.blank.attach_all [(1, ⟨0, 0⟩), (2, ⟨1, -1⟩)]).symmetric := by
  intro h
  have h1 := h 1 2 0 (by decide)
  revert h1
  decide

/-- C2: the back-link written by `attach_chunk`. If chunk `A` is stored at `p`, attaching `B`
one step from `p` in direction `d` leaves `A.neighbor[d] == B`; and if chunk `N` is stored one
step from `q` in direction `i`, attaching `B` at `q` leaves `N.neighbor[(i+4) mod 8] == B`. -/
theorem attach_chunk_back_link (w : World) (B : Nat) :
    (∀ (p : coord.chunk) (d : Fin 8) (A : Nat), (w.terrain.get_chunk p).1 = some A →
      ((w.attach_chunk B (step p d)).heap A).neighbors.neighbor d = some B) ∧
    (∀ (q : coord.chunk) (i : Fin 8) (N : Nat), (w.terrain.get_chunk (step q i)).1 = some N →
      ((w.attach_chunk B q).heap N).neighbors.neighbor (opposite i) = some B) := by
  have key : ∀ (q : coord.chunk) (i : Fin 8) (N : Nat),
      (w.terrain.get_chunk (step q i)).1 = some N →
      ((w.attach_chunk B q).heap N).neighbors.neighbor (opposite i) = some B := by
    intro q i N h
    rw [get_chunk_fst, Option.join_eq_some] at h
    rw [attach_chunk_slot, if_pos ⟨i, h, rfl⟩]
  refine ⟨?_, key⟩
  intro p d A h
  have h2 := key (step p d) (opposite d) A (by rw [step_opposite]; exact h)
  rw [opposite_opposite] at h2
  exact h2

/-- Witness of C2: chunk 1 stored at (0,0), chunk 2 attached one step in direction 0. -/
theorem attach_chunk_back_link_witness :
    ((World.blank.attach_chunk 1 ⟨0, 0⟩).terrain.get_chunk ⟨0, 0⟩).1 = some 1 ∧
    (((World.blank.attach_chunk 1 ⟨0, 0⟩).attach_chunk 2 (step ⟨0, 0⟩ 0)).heap 1).neighbors.neighbor
      0 = some 2 :=
  ⟨by decide,
   (attach_chunk_back_link (World.blank.attach_chunk 1 ⟨0, 0⟩) 2).1 ⟨0, 0⟩ 0 1 (by decide)⟩

/-- C3: the forward link is not written by the code. In every direction `d`: with chunk 1
stored at (0,0) and chunk 2 blank, attaching chunk 2 one step from (0,0) in direction `d`
leaves slot `(d+4) mod 8` of chunk 2 empty instead of pointing to chunk 1. -/
theorem forward_link_not_written :
    ∀ d : Fin 8,
      ((World.blank.attach_chunk 1 ⟨0, 0⟩).terrain.get_chunk ⟨0, 0⟩).1 = some 1 ∧
      (∀ j : Fin 8, ((World.blank.attach_chunk 1 ⟨0, 0⟩).heap 2).neighbors.neighbor j = none) ∧
      (((World.blank.attach_chunk 1 ⟨0, 0⟩).attach_chunk 2 (step ⟨0, 0⟩ d)).heap
        2).neighbors.neighbor (opposite d) = none := by
  decide

/-- C4: `get_chunk_neighbors` follows the offset table of the design document: slot `i` is
what `get_chunk` returns at the position moved by the `i`-th table entry, and the slot is
empty exactly when no chunk is stored there. -/
theorem get_chunk_neighbors_follows_table (t : Terrain) (p : coord.chunk) (i : Fin 8) :
    (t.get_chunk_neighbors p).1.neighbor i =
      (t.get_chunk ⟨p.ne + (spec_offset i).1, p.se + (spec_offset i).2⟩).1 ∧
    ((t.get_chunk_neighbors p).1.neighbor i = none ↔
      ¬ ∃ c, t.chunks.find ⟨p.ne + (spec_offset i).1, p.se + (spec_offset i).2⟩ =
        some (some c)) := by
  have htab : ∀ i : Fin 8, spec_offset i = (neighbor_pos_delta i 0, neighbor_pos_delta i 1) := by
    decide
  have hpos : (⟨p.ne + (spec_offset i).1, p.se + (spec_offset i).2⟩ : coord.chunk) =
      step p i := by
    rw [htab i]
    rfl
  rw [hpos, get_chunk_neighbors_fst, get_chunk_fst]
  refine ⟨rfl, ?_⟩
  rcases h : t.chunks.find (step p i) with _ | v
  · simp
  · rcases v with _ | c
    · simp
    · simp

/-- C5: the opposite direction inverts the offset. The table entry of direction
`(d+4) mod 8` is the negative of the entry of `d` on both axes, and stepping from `p` in
direction `d` and then in direction `(d+4) mod 8` returns to `p`. -/
theorem opposite_inverts_offset (d : Fin 8) (p : coord.chunk) :
    neighbor_pos_delta (opposite d) 0 = - neighbor_pos_delta d 0 ∧
    neighbor_pos_delta (opposite d) 1 = - neighbor_pos_delta d 1 ∧
    step (step p d) (opposite d) = p := by
  have h : ∀ d : Fin 8, neighbor_pos_delta (opposite d) 0 = - neighbor_pos_delta d 0 ∧
      neighbor_pos_delta (opposite d) 1 = - neighbor_pos_delta d 1 := by decide
  exact ⟨(h d).1, (h d).2, step_opposite p d⟩

/-- C6: the chunk store is last-write-wins and never fabricates. After any sequence of attach
calls on a freshly constructed terrain, `get_chunk(p)` is the chunk of the most recent call
at `p`, and absent when no call was at `p`; one `attach_chunk(c, p)` makes `get_chunk(p) == c`
and leaves `get_chunk(q)` as it was for every other `q`; `get_chunk` leaves the store as it
is. -/
theorem get_chunk_last_write_wins (tp n : Nat) (terrain_meta : Nat → terrain_type) (m : Nat)
    (blending_meta : Nat → blending_mode) (heap : Nat → TerrainChunk)
    (calls : List (Nat × coord.chunk)) (p : coord.chunk) :
    ((((World.fresh tp n terrain_meta m blending_meta heap).attach_all calls).terrain.get_chunk
      p).1 = last_attached calls p) ∧
    ((∀ c ∈ calls, c.2 ≠ p) →
      (((World.fresh tp n terrain_meta m blending_meta heap).attach_all calls).terrain.get_chunk
        p).1 = none) ∧
    (∀ (w : World) (c : Nat) (q : coord.chunk),
      ((w.attach_chunk c p).terrain.get_chunk q).1 =
        if q = p then some c else (w.terrain.get_chunk q).1) ∧
    (∀ t : Terrain, (t.get_chunk p).2 = t) := by
  have h1 : (((World.fresh tp n terrain_meta m blending_meta heap).attach_all
      calls).terrain.get_chunk p).1 = last_attached calls p := by
    rw [get_chunk_fst, attach_all_find, fresh_find]
    cases last_attached calls p <;> rfl
  refine ⟨h1, ?_, ?_, fun t => get_chunk_snd t p⟩
  · intro hno
    rw [h1]
    simp only [last_attached, Option.map_eq_none', List.find?_eq_none, List.mem_reverse]
    intro c hc
    simpa using hno c hc
  · intro w c q
    rw [get_chunk_fst, get_chunk_fst, attach_chunk_find]
    by_cases h : p = q
    · subst h
      simp
    · have h2 : ¬ q = p := fun e => h e.symm
      simp [h, h2]

/-- Witness of C6: chunk 1 then chunk 2 attached at (0,0), chunk 3 at (1,0); position (5,5)
was never attached and reads as absent. -/
theorem get_chunk_last_write_wins_witness :
    (∀ c ∈ [((1 : Nat), (⟨0, 0⟩ : coord.chunk)), (2, ⟨0, 0⟩), (3, ⟨1, 0⟩)], c.2 ≠ ⟨5, 5⟩) ∧
    ((World.blank.attach_all [(1, ⟨0, 0⟩), (2, ⟨0, 0⟩), (3, ⟨1, 0⟩)]).terrain.get_chunk
      ⟨5, 5⟩).1 = none :=
  ⟨by decide,
   (get_chunk_last_write_wins 0 0 (fun _ => ⟨0, 0, 0, 0, 0, 0, 0, 0, 0, 0, 0⟩) 0
      (fun _ => ⟨0, 0⟩) (fun _ => TerrainChunk.blank)
      [(1, ⟨0, 0⟩), (2, ⟨0, 0⟩), (3, ⟨1, 0⟩)] ⟨5, 5⟩).2.1 (by decide)⟩

/-- C7: only the two mutual slots are set in the two-chunk scenario. On a freshly constructed
terrain with two distinct chunks `A` and `B` whose slots are all empty, after attaching `A` at
`p` and `B` one step from `p` in direction `d`, every slot of `A` other than `d` and every
slot of `B` other than `(d+4) mod 8` is empty. -/
theorem two_chunk_scenario_other_slots_empty (tp n : Nat) (terrain_meta : Nat → terrain_type)
    (m : Nat) (blending_meta : Nat → blending_mode) (heap : Nat → TerrainChunk)
    (A B : Nat) (p : coord.chunk) (d : Fin 8) (hAB : A ≠ B)
    (hA : ∀ j, (heap A).neighbors.neighbor j = none)
    (hB : ∀ j, (heap B).neighbors.neighbor j = none) :
    (∀ j, j ≠ d →
      ((((World.fresh tp n terrain_meta m blending_meta heap).attach_chunk A p).attach_chunk B
        (step p d)).heap A).neighbors.neighbor j = none) ∧
    (∀ j, j ≠ opposite d →
      ((((World.fresh tp n terrain_meta m blending_meta heap).attach_chunk A p).attach_chunk B
        (step p d)).heap B).neighbors.neighbor j = none) := by
  have first : ∀ (a : Nat) (j : Fin 8),
      (((World.fresh tp n terrain_meta m blending_meta heap).attach_chunk A p).heap
        a).neighbors.neighbor j = (heap a).neighbors.neighbor j := by
    intro a j
    rw [attach_chunk_slot, if_neg]
    · rfl
    · rintro ⟨i, hi, _⟩
      rw [fresh_find] at hi
      exact Option.noConfusion hi
  have stored : ∀ (i : Fin 8) (a : Nat),
      ((World.fresh tp n terrain_meta m blending_meta heap).attach_chunk A p).terrain.chunks.find
        (step (step p d) i) = some (some a) → i = opposite d ∧ a = A := by
    intro i a hi
    rw [attach_chunk_find, fresh_find] at hi
    by_cases hp : p = step (step p d) i
    · rw [if_pos hp] at hi
      refine ⟨step_back_unique p d i hp.symm, ?_⟩
      simpa using hi.symm
    · rw [if_neg hp] at hi
      exact Option.noConfusion hi
  constructor
  · intro j hj
    rw [attach_chunk_slot, if_neg, first, hA]
    rintro ⟨i, hi, hij⟩
    obtain ⟨hio, _⟩ := stored i A hi
    apply hj
    rw [← hij, hio, opposite_opposite]
  · intro j _
    rw [attach_chunk_slot, if_neg, first, hB]
    rintro ⟨i, hi, _⟩
    exact hAB (stored i B hi).2.symm

/-- Witness of C7: `A` is chunk 1 at (0,0), `B` is chunk 2 at (1,-1), direction 0. -/
theorem two_chunk_scenario_other_slots_empty_witness :
    (∀ j, j ≠ (0 : Fin 8) →
      ((((World.fresh 0 0 (fun _ => ⟨0, 0, 0, 0, 0, 0, 0, 0, 0, 0, 0⟩) 0 (fun _ => ⟨0, 0⟩)
        (fun _ => TerrainChunk.blank)).attach_chunk 1 ⟨0, 0⟩).attach_chunk 2
        (step ⟨0, 0⟩ 0)).heap 1).neighbors.neighbor j = none) ∧
    (∀ j, j ≠ opposite (0 : Fin 8) →
      ((((World.fresh 0 0 (fun _ => ⟨0, 0, 0, 0, 0, 0, 0, 0, 0, 0, 0⟩) 0 (fun _ => ⟨0, 0⟩)
        (fun _ => TerrainChunk.blank)).attach_chunk 1 ⟨0, 0⟩).attach_chunk 2
        (step ⟨0, 0⟩ 0)).heap 2).neighbors.neighbor j = none) :=
  two_chunk_scenario_other_slots_empty 0 0 (fun _ => ⟨0, 0, 0, 0, 0, 0, 0, 0, 0, 0, 0⟩) 0
    (fun _ => ⟨0, 0⟩) (fun _ => TerrainChunk.blank) 1 2 ⟨0, 0⟩ 0 (by decide)
    (fun _ => rfl) (fun _ => rfl)

/-! ## Claims on the sub-texture indexer and the blend resolver -/

/-- C8: the sub-texture index formula. For every atlas size of at least 1,
`get_subtexture_id` returns `(mod(q.se, n) * n + mod(q.ne, n))` reduced modulo `2 ^ 32`, where
`q` is the normalized position `chunk_pos.to_tile(pos.get_pos_on_chunk())`: the row is the
`se` component and the column the `ne` component. -/
theorem get_subtexture_id_formula (tiles_per_chunk : Nat) (pos : coord.tile) (atlas_size : Nat)
    (chunk_pos : coord.chunk) (h : 1 ≤ atlas_size) :
    Terrain.get_subtexture_id tiles_per_chunk pos atlas_size chunk_pos =
      some (spec_subtexture_index
        (chunk_pos.to_tile tiles_per_chunk (pos.get_pos_on_chunk tiles_per_chunk)).ne
        (chunk_pos.to_tile tiles_per_chunk (pos.get_pos_on_chunk tiles_per_chunk)).se
        atlas_size) :=
  get_subtexture_id_eq tiles_per_chunk pos atlas_size chunk_pos h

/-- Witness of C8: tile (-3, 7) on chunk (2, -1), chunks 16 tiles wide, atlas of size 5. -/
theorem get_subtexture_id_formula_witness :
    1 ≤ 5 ∧
    Terrain.get_subtexture_id 16 ⟨-3, 7⟩ 5 ⟨2, -1⟩ =
      some (spec_subtexture_index
        ((⟨2, -1⟩ : coord.chunk).to_tile 16 ((⟨-3, 7⟩ : coord.tile).get_pos_on_chunk 16)).ne
        ((⟨2, -1⟩ : coord.chunk).to_tile 16 ((⟨-3, 7⟩ : coord.tile).get_pos_on_chunk 16)).se
        5) :=
  ⟨by decide, get_subtexture_id_formula 16 ⟨-3, 7⟩ 5 ⟨2, -1⟩ (by decide)⟩

/-- C9, as stated, fails: with chunks 16 tiles wide and an atlas of size 3, the tile (15,15)
and the tile shifted by 1 * 3 along both axes, (18,18), which lies in the next chunk, get
different indices for the same chunk position (0,0). -/
theorem subtexture_not_periodic_across_chunks :
    Terrain.get_subtexture_id 16 ⟨15, 15⟩ 3 ⟨0, 0⟩ = some 0 ∧
    Terrain.get_subtexture_id 16 (shift_tile ⟨15, 15⟩ 1 3) 3 ⟨0, 0⟩ = some 8 ∧
    Terrain.get_subtexture_id 16 ⟨15, 15⟩ 3 ⟨0, 0⟩ ≠
      Terrain.get_subtexture_id 16 (shift_tile ⟨15, 15⟩ 1 3) 3 ⟨0, 0⟩ := by
  decide

/-- C9, amended: the sub-texture index is periodic whenever the atlas size divides the chunk
width, or the shifted tile lies in the same chunk as the original one. Under either condition,
for every tile position, atlas size `n`, chunk position and integer `k`, the index of the tile
equals the index of the tile shifted by `k * n` along both axes. -/
theorem subtexture_periodic_when_aligned (tiles_per_chunk : Nat) (pos : coord.tile) (n : Nat)
    (chunk_pos : coord.chunk) (k : Int)
    (h : n ∣ tiles_per_chunk ∨
      chunk_of tiles_per_chunk (shift_tile pos k n) = chunk_of tiles_per_chunk pos) :
    Terrain.get_subtexture_id tiles_per_chunk pos n chunk_pos =
      Terrain.get_subtexture_id tiles_per_chunk (shift_tile pos k n) n chunk_pos := by
  by_cases hn : n = 0
  · subst hn
    simp [Terrain.get_subtexture_id, util.mod]
  · have hn1 : 1 ≤ n := Nat.one_le_iff_ne_zero.mpr hn
    have hne : (n : Int) ∣ (tiles_per_chunk : Int) ∨
        (pos.ne + k * n) / (tiles_per_chunk : Int) = pos.ne / (tiles_per_chunk : Int) := by
      rcases h with h | h
      · exact Or.inl (Int.natCast_dvd_natCast.mpr h)
      · exact Or.inr (congrArg coord.chunk.ne h)
    have hse : (n : Int) ∣ (tiles_per_chunk : Int) ∨
        (pos.se + k * n) / (tiles_per_chunk : Int) = pos.se / (tiles_per_chunk : Int) := by
      rcases h with h | h
      · exact Or.inl (Int.natCast_dvd_natCast.mpr h)
      · exact Or.inr (congrArg coord.chunk.se h)
    rw [get_subtexture_id_eq _ _ _ _ hn1, get_subtexture_id_eq _ _ _ _ hn1]
    simp only [coord.chunk.to_tile, coord.tile.get_pos_on_chunk, shift_tile]
    rw [shifted_pos_mod tiles_per_chunk n chunk_pos.ne pos.ne k hne,
      shifted_pos_mod tiles_per_chunk n chunk_pos.se pos.se k hse]

/-- Witness of the amended C9: atlas size 4 divides the chunk width 16; the tile (15,15) is
shifted across the chunk boundary to (19,19). -/
theorem subtexture_periodic_when_aligned_witness :
    (4 ∣ 16 ∨ chunk_of 16 (shift_tile ⟨15, 15⟩ 1 4) = chunk_of 16 ⟨15, 15⟩) ∧
    Terrain.get_subtexture_id 16 ⟨15, 15⟩ 4 ⟨0, 0⟩ =
      Terrain.get_subtexture_id 16 (shift_tile ⟨15, 15⟩ 1 4) 4 ⟨0, 0⟩ :=
  ⟨Or.inl (by decide),
   subtexture_periodic_when_aligned 16 ⟨15, 15⟩ 4 ⟨0, 0⟩ 1 (Or.inl (by decide))⟩

/-- C10: blend resolution is the maximum. For all terrain ids below `terrain_type_count`,
both `blendmode` lookups succeed and `get_blending_mode(a, b)` is the larger of the two blend
modes, whatever the render priorities are. -/
theorem get_blending_mode_is_max (t : Terrain) (a b : Nat) (ha : a < t.terrain_type_count)
    (hb : b < t.terrain_type_count) :
    ∃ x y, t.blendmode a = Except.ok x ∧ t.blendmode b = Except.ok y ∧
      t.get_blending_mode a b = Except.ok (max x y) ∧
      ∀ pr : Nat → Int,
        ({ t with terrain_id_priority_map := pr } : Terrain).get_blending_mode a b =
          t.get_blending_mode a b := by
  have hba : ∀ (u : Terrain) (i : Nat), i < u.terrain_type_count →
      u.blendmode i = Except.ok (u.terrain_id_blendmode_map i) := by
    intro u i hi
    have hi2 : ¬ i ≥ u.terrain_type_count := by omega
    simp only [Terrain.blendmode, Terrain.valid_terrain, hi2, if_false]
    rfl
  refine ⟨t.terrain_id_blendmode_map a, t.terrain_id_blendmode_map b, hba t a ha, hba t b hb,
    ?_, ?_⟩
  · simp only [Terrain.get_blending_mode, hba t a ha, hba t b hb]
    by_cases hgt : t.terrain_id_blendmode_map b > t.terrain_id_blendmode_map a
    · have hmax : max (t.terrain_id_blendmode_map a) (t.terrain_id_blendmode_map b) =
          t.terrain_id_blendmode_map b := max_eq_right (le_of_lt hgt)
      rw [hmax]
      simp only [bind, Except.bind, hgt, if_true]
      rfl
    · have hmax : max (t.terrain_id_blendmode_map a) (t.terrain_id_blendmode_map b) =
          t.terrain_id_blendmode_map a := max_eq_left (not_lt.mp hgt)
      rw [hmax]
      simp only [bind, Except.bind, hgt, if_false]
      rfl
  · intro pr
    rfl

/-- Witness of C10: the two-type registry of the design document; `get_blending_mode(0, 1)`
is 1. -/
theorem get_blending_mode_is_max_witness :
    0 < two_type_terrain.terrain_type_count ∧ 1 < two_type_terrain.terrain_type_count ∧
    two_type_terrain.get_blending_mode 0 1 = Except.ok 1 ∧
    ∃ x y, two_type_terrain.blendmode 0 = Except.ok x ∧
      two_type_terrain.blendmode 1 = Except.ok y ∧
      two_type_terrain.get_blending_mode 0 1 = Except.ok (max x y) ∧
      ∀ pr : Nat → Int,
        ({ two_type_terrain with terrain_id_priority_map := pr } : Terrain).get_blending_mode
          0 1 = two_type_terrain.get_blending_mode 0 1 :=
  ⟨by decide, by decide, rfl, get_blending_mode_is_max two_type_terrain 0 1 (by decide) (by decide)⟩

/-! ## The registries -/

theorem load_terrain_type_fold_tables (terrain_meta : Nat → terrain_type) (l : List Nat)
    (t : Terrain) (i : Nat) :
    (l.foldl (Terrain.load_terrain_type terrain_meta) t).terrain_id_priority_map i =
      (if i ∈ l then (terrain_meta i).blend_priority else t.terrain_id_priority_map i) ∧
    (l.foldl (Terrain.load_terrain_type terrain_meta) t).terrain_id_blendmode_map i =
      (if i ∈ l then (terrain_meta i).blend_mode else t.terrain_id_blendmode_map i) ∧
    (l.foldl (Terrain.load_terrain_type terrain_meta) t).textures i =
      (if i ∈ l then some (terrain_texture_of (terrain_meta i)) else t.textures i) ∧
    (l.foldl (Terrain.load_terrain_type terrain_meta) t).blending_masks i =
      t.blending_masks i := by
  induction l generalizing t with
  | nil => simp
  | cons a tl ih =>
    obtain ⟨h1, h2, h3, h4⟩ := ih (Terrain.load_terrain_type terrain_meta t a)
    rw [List.foldl_cons, h1, h2, h3, h4]
    by_cases hi : i ∈ tl
    · simp [hi, Terrain.load_terrain_type]
    · by_cases hia : i = a
      · subst hia
        simp [Terrain.load_terrain_type, terrain_texture_of, Texture.fix_hotspots]
      · simp [hi, hia, Terrain.load_terrain_type, Function.update_apply]

theorem load_blending_mode_fold_tables (blending_meta : Nat → blending_mode) (l : List Nat)
    (t : Terrain) (i : Nat) :
    (l.foldl (Terrain.load_blending_mode blending_meta) t).terrain_id_priority_map i =
      t.terrain_id_priority_map i ∧
    (l.foldl (Terrain.load_blending_mode blending_meta) t).terrain_id_blendmode_map i =
      t.terrain_id_blendmode_map i ∧
    (l.foldl (Terrain.load_blending_mode blending_meta) t).textures i = t.textures i ∧
    (l.foldl (Terrain.load_blending_mode blending_meta) t).blending_masks i =
      (if i ∈ l then some (mask_texture_of (blending_meta i)) else t.blending_masks i) := by
  induction l generalizing t with
  | nil => simp
  | cons a tl ih =>
    obtain ⟨h1, h2, h3, h4⟩ := ih (Terrain.load_blending_mode blending_meta t a)
    rw [List.foldl_cons, h1, h2, h3, h4]
    by_cases hi : i ∈ tl
    · simp [hi, Terrain.load_blending_mode]
    · by_cases hia : i = a
      · subst hia
        simp [Terrain.load_blending_mode, mask_texture_of, Texture.fix_hotspots]
      · simp [hi, hia, Terrain.load_blending_mode, Function.update_apply]

theorem create_counts (n : Nat) (terrain_meta : Nat → terrain_type) (m : Nat)
    (blending_meta : Nat → blending_mode) :
    (Terrain.create n terrain_meta m blending_meta).terrain_type_count = n ∧
    (Terrain.create n terrain_meta m blending_meta).blendmode_count = m := by
  simp only [Terrain.create]
  rw [(load_blending_mode_fold_chunks _ _ _).2.1, (load_blending_mode_fold_chunks _ _ _).2.2,
    (load_terrain_type_fold_chunks _ _ _).2.1, (load_terrain_type_fold_chunks _ _ _).2.2]
  exact ⟨rfl, rfl⟩

theorem create_tables (n : Nat) (terrain_meta : Nat → terrain_type) (m : Nat)
    (blending_meta : Nat → blending_mode) :
    (∀ i, i < n →
      (Terrain.create n terrain_meta m blending_meta).terrain_id_priority_map i =
        (terrain_meta i).blend_priority ∧
      (Terrain.create n terrain_meta m blending_meta).terrain_id_blendmode_map i =
        (terrain_meta i).blend_mode ∧
      (Terrain.create n terrain_meta m blending_meta).textures i =
        some (terrain_texture_of (terrain_meta i))) ∧
    (∀ j, j < m →
      (Terrain.create n terrain_meta m blending_meta).blending_masks j =
        some (mask_texture_of (blending_meta j))) := by
  constructor
  · intro i hi
    simp only [Terrain.create]
    rw [(load_blending_mode_fold_tables _ _ _ i).1, (load_blending_mode_fold_tables _ _ _ i).2.1,
      (load_blending_mode_fold_tables _ _ _ i).2.2.1,
      (load_terrain_type_fold_tables _ _ _ i).1, (load_terrain_type_fold_tables _ _ _ i).2.1,
      (load_terrain_type_fold_tables _ _ _ i).2.2.1]
    simp [List.mem_range, hi]
  · intro j hj
    simp only [Terrain.create]
    rw [(load_blending_mode_fold_tables _ _ _ j).2.2.2, (load_terrain_type_fold_chunks _ _ _).2.2]
    simp [List.mem_range, hj]

theorem attach_all_tables (w : World) (calls : List (Nat × coord.chunk)) :
    (w.attach_all calls).terrain.terrain_type_count = w.terrain.terrain_type_count ∧
    (w.attach_all calls).terrain.blendmode_count = w.terrain.blendmode_count ∧
    (w.attach_all calls).terrain.terrain_id_priority_map = w.terrain.terrain_id_priority_map ∧
    (w.attach_all calls).terrain.terrain_id_blendmode_map = w.terrain.terrain_id_blendmode_map ∧
    (w.attach_all calls).terrain.textures = w.terrain.textures ∧
    (w.attach_all calls).terrain.blending_masks = w.terrain.blending_masks := by
  induction calls using List.reverseRecOn with
  | nil => simp [World.attach_all]
  | append_singleton l c ih =>
    rw [attach_all_append, attach_chunk_terrain]
    exact ih

theorem valid_terrain_ok (t : Terrain) (id : Nat) (h : id < t.terrain_type_count) :
    t.valid_terrain id = Except.ok true := by
  have h2 : ¬ id ≥ t.terrain_type_count := by omega
  simp only [Terrain.valid_terrain, h2, if_false]

theorem valid_terrain_error (t : Terrain) (id : Nat) (h : t.terrain_type_count ≤ id) :
    t.valid_terrain id = Except.error (terrain_range_error id) := by
  have h2 : id ≥ t.terrain_type_count := h
  simp only [Terrain.valid_terrain, h2, if_true, terrain_range_error]

theorem valid_mask_ok (t : Terrain) (id : Nat) (h : id < t.blendmode_count) :
    t.valid_mask id = Except.ok true := by
  have h2 : ¬ id ≥ t.blendmode_count := by omega
  simp only [Terrain.valid_mask, h2, if_false]

theorem valid_mask_error (t : Terrain) (id : Nat) (h : t.blendmode_count ≤ id) :
    t.valid_mask id = Except.error (mask_range_error id) := by
  have h2 : id ≥ t.blendmode_count := h
  simp only [Terrain.valid_mask, h2, if_true, mask_range_error]

theorem lookups_ok (t : Terrain) (id : Nat) (h : id < t.terrain_type_count) :
    t.priority id = Except.ok (t.terrain_id_priority_map id) ∧
    t.blendmode id = Except.ok (t.terrain_id_blendmode_map id) ∧
    t.texture id = Except.ok (t.textures id) := by
  simp only [Terrain.priority, Terrain.blendmode, Terrain.texture, valid_terrain_ok t id h]
  exact ⟨rfl, rfl, rfl⟩

theorem lookups_error (t : Terrain) (id : Nat) (h : t.terrain_type_count ≤ id) :
    t.priority id = Except.error (terrain_range_error id) ∧
    t.blendmode id = Except.error (terrain_range_error id) ∧
    t.texture id = Except.error (terrain_range_error id) := by
  simp only [Terrain.priority, Terrain.blendmode, Terrain.texture, valid_terrain_error t id h]
  exact ⟨rfl, rfl, rfl⟩

theorem blending_mask_ok (t : Terrain) (id : Nat) (h : id < t.blendmode_count) :
    t.blending_mask id = Except.ok (t.blending_masks id) := by
  simp only [Terrain.blending_mask, valid_mask_ok t id h]
  rfl

theorem blending_mask_error (t : Terrain) (id : Nat) (h : t.blendmode_count ≤ id) :
    t.blending_mask id = Except.error (mask_range_error id) := by
  simp only [Terrain.blending_mask, valid_mask_error t id h]
  rfl

theorem get_blending_mode_cases (t : Terrain) (a b : Nat) :
    t.get_blending_mode a b =
      if t.terrain_type_count ≤ a then Except.error (terrain_range_error a)
      else if t.terrain_type_count ≤ b then Except.error (terrain_range_error b)
      else Except.ok (max (t.terrain_id_blendmode_map a) (t.terrain_id_blendmode_map b)) := by
  by_cases ha : t.terrain_type_count ≤ a
  · rw [if_pos ha]
    simp only [Terrain.get_blending_mode, (lookups_error t a ha).2.1]
    rfl
  · rw [if_neg ha]
    have ha2 : a < t.terrain_type_count := by omega
    by_cases hb : t.terrain_type_count ≤ b
    · rw [if_pos hb]
      simp only [Terrain.get_blending_mode, (lookups_ok t a ha2).2.1, (lookups_error t b hb).2.1]
      rfl
    · rw [if_neg hb]
      have hb2 : b < t.terrain_type_count := by omega
      simp only [Terrain.get_blending_mode, (lookups_ok t a ha2).2.1, (lookups_ok t b hb2).2.1]
      by_cases hgt : t.terrain_id_blendmode_map b > t.terrain_id_blendmode_map a
      · rw [max_eq_right (le_of_lt hgt)]
        simp only [bind, Except.bind, hgt, if_true]
        rfl
      · rw [max_eq_left (not_lt.mp hgt)]
        simp only [bind, Except.bind, hgt, if_false]
        rfl

/-! ## Claims on the registries and the blend resolver -/

/-- C11, as stated, fails: on a terrain with no terrain types the ids 0 and 1 are both out of
range, `get_blending_mode(0, 1)` raises the error that names id 0 and `get_blending_mode(1, 0)`
the error that names id 1; the two outcomes differ. -/
theorem get_blending_mode_errors_differ :
    World.blank.terrain.get_blending_mode 0 1 =
      Except.error { msg := "requested terrain_id is out of range: 0" } ∧
    World.blank.terrain.get_blending_mode 1 0 =
      Except.error { msg := "requested terrain_id is out of range: 1" } ∧
    World.blank.terrain.get_blending_mode 0 1 ≠ World.blank.terrain.get_blending_mode 1 0 := by
  have h1 : World.blank.terrain.get_blending_mode 0 1 =
      Except.error { msg := "requested terrain_id is out of range: 0" } := rfl
  have h2 : World.blank.terrain.get_blending_mode 1 0 =
      Except.error { msg := "requested terrain_id is out of range: 1" } := rfl
  refine ⟨h1, h2, ?_⟩
  rw [h1, h2]
  intro h
  injection h with h
  injection h with h
  revert h
  decide

/-- C11, amended: `get_blending_mode(a, b)` and `get_blending_mode(b, a)` have the same outcome
whenever at most one of the two ids is out of range (or the ids are equal); for every pair of
ids they return the same mode or both raise a range error. -/
theorem get_blending_mode_comm (t : Terrain) (a b : Nat) :
    ((a < t.terrain_type_count ∨ b < t.terrain_type_count ∨ a = b) →
      t.get_blending_mode a b = t.get_blending_mode b a) ∧
    (t.get_blending_mode a b).toOption = (t.get_blending_mode b a).toOption := by
  rw [get_blending_mode_cases t a b, get_blending_mode_cases t b a]
  by_cases ha : t.terrain_type_count ≤ a
  · by_cases hb : t.terrain_type_count ≤ b
    · simp only [ha, hb, if_true]
      refine ⟨?_, rfl⟩
      rintro (h | h | h)
      · omega
      · omega
      · rw [h]
    · simp [ha, hb]
  · by_cases hb : t.terrain_type_count ≤ b
    · simp [ha, hb]
    · simp [ha, hb, max_comm]

/-- Witness of the amended C11: in the two-type registry id 0 is valid and id 7 is not; both
orders raise the same error. -/
theorem get_blending_mode_comm_witness :
    (0 < two_type_terrain.terrain_type_count ∨ 7 < two_type_terrain.terrain_type_count ∨
      0 = 7) ∧
    two_type_terrain.get_blending_mode 0 7 = two_type_terrain.get_blending_mode 7 0 :=
  ⟨Or.inl (by decide), (get_blending_mode_comm two_type_terrain 0 7).1 (Or.inl (by decide))⟩

/-- C12: lookups return what construction recorded. On a terrain constructed from `n` terrain
records and `m` blend records, after any sequence of attach calls (the empty one included),
`priority(i)`, `blendmode(i)` and `texture(i)` return the priority, the blend mode and the
texture handle of record `i` for every `i < n`, and `blending_mask(j)` returns the mask handle
of record `j` for every `j < m`. -/
theorem lookups_return_recorded (tp n : Nat) (terrain_meta : Nat → terrain_type) (m : Nat)
    (blending_meta : Nat → blending_mode) (heap : Nat → TerrainChunk)
    (calls : List (Nat × coord.chunk)) :
    (∀ i, i < n →
      ((World.fresh tp n terrain_meta m blending_meta heap).attach_all calls).terrain.priority i =
        Except.ok (terrain_meta i).blend_priority ∧
      ((World.fresh tp n terrain_meta m blending_meta heap).attach_all calls).terrain.blendmode i =
        Except.ok (terrain_meta i).blend_mode ∧
      ((World.fresh tp n terrain_meta m blending_meta heap).attach_all calls).terrain.texture i =
        Except.ok (some (terrain_texture_of (terrain_meta i)))) ∧
    (∀ j, j < m →
      ((World.fresh tp n terrain_meta m blending_meta heap).attach_all calls).terrain.blending_mask
        j = Except.ok (some (mask_texture_of (blending_meta j)))) := by
  obtain ⟨c1, c2, t1, t2, t3, t4⟩ :=
    attach_all_tables (World.fresh tp n terrain_meta m blending_meta heap) calls
  have hc := create_counts n terrain_meta m blending_meta
  have ht := create_tables n terrain_meta m blending_meta
  simp only [World.fresh] at c1 c2 t1 t2 t3 t4
  constructor
  · intro i hi
    have hlt : i < ((World.fresh tp n terrain_meta m blending_meta heap).attach_all
        calls).terrain.terrain_type_count := by
      simp only [World.fresh]
      rw [c1, hc.1]
      exact hi
    obtain ⟨l1, l2, l3⟩ := lookups_ok _ i hlt
    simp only [World.fresh] at l1 l2 l3
    simp only [World.fresh]
    rw [l1, l2, l3, t1, t2, t3, (ht.1 i hi).1, (ht.1 i hi).2.1, (ht.1 i hi).2.2]
    exact ⟨rfl, rfl, rfl⟩
  · intro j hj
    have hlt : j < ((World.fresh tp n terrain_meta m blending_meta heap).attach_all
        calls).terrain.blendmode_count := by
      simp only [World.fresh]
      rw [c2, hc.2]
      exact hj
    have l1 := blending_mask_ok _ j hlt
    simp only [World.fresh] at l1
    simp only [World.fresh]
    rw [l1, t4, ht.2 j hj]

/-- Witness of C12: three terrain records whose blend priority is the index plus 10, read at
index 1 after two attach calls. -/
theorem lookups_return_recorded_witness :
    (1 : Nat) < 3 ∧
    ((World.fresh 0 3 (fun i => ⟨i, 0, i, 0, i, i + 10, 0, 0, 0, 0, 0⟩) 1 (fun j => ⟨j, j⟩)
      (fun _ => TerrainChunk.blank)).attach_all [(1, ⟨0, 0⟩), (2, ⟨1, 0⟩)]).terrain.priority 1 =
      Except.ok 11 :=
  ⟨by decide,
   ((lookups_return_recorded 0 3 (fun i => ⟨i, 0, i, 0, i, i + 10, 0, 0, 0, 0, 0⟩) 1
      (fun j => ⟨j, j⟩) (fun _ => TerrainChunk.blank) [(1, ⟨0, 0⟩), (2, ⟨1, 0⟩)]).1 1
      (by decide)).1⟩

/-- C13: range errors are raised exactly on out-of-range ids. `priority`, `blendmode` and
`texture` fail if and only if the id is at least `terrain_type_count`, `blending_mask` fails if
and only if the id is at least `blendmode_count`, `get_blending_mode` fails if and only if one
of its two ids is at least `terrain_type_count`. -/
theorem range_error_iff_out_of_range (t : Terrain) (id a b : Nat) :
    ((∃ e, t.priority id = Except.error e) ↔ t.terrain_type_count ≤ id) ∧
    ((∃ e, t.blendmode id = Except.error e) ↔ t.terrain_type_count ≤ id) ∧
    ((∃ e, t.texture id = Except.error e) ↔ t.terrain_type_count ≤ id) ∧
    ((∃ e, t.blending_mask id = Except.error e) ↔ t.blendmode_count ≤ id) ∧
    ((∃ e, t.get_blending_mode a b = Except.error e) ↔
      (t.terrain_type_count ≤ a ∨ t.terrain_type_count ≤ b)) := by
  have lookups : ((∃ e, t.priority id = Except.error e) ↔ t.terrain_type_count ≤ id) ∧
      ((∃ e, t.blendmode id = Except.error e) ↔ t.terrain_type_count ≤ id) ∧
      ((∃ e, t.texture id = Except.error e) ↔ t.terrain_type_count ≤ id) := by
    by_cases h : t.terrain_type_count ≤ id
    · obtain ⟨h1, h2, h3⟩ := lookups_error t id h
      exact ⟨⟨fun _ => h, fun _ => ⟨_, h1⟩⟩, ⟨fun _ => h, fun _ => ⟨_, h2⟩⟩,
        ⟨fun _ => h, fun _ => ⟨_, h3⟩⟩⟩
    · obtain ⟨h1, h2, h3⟩ := lookups_ok t id (by omega)
      rw [h1, h2, h3]
      simp [h]
  have mask : (∃ e, t.blending_mask id = Except.error e) ↔ t.blendmode_count ≤ id := by
    by_cases h : t.blendmode_count ≤ id
    · exact ⟨fun _ => h, fun _ => ⟨_, blending_mask_error t id h⟩⟩
    · rw [blending_mask_ok t id (by omega)]
      simp [h]
  refine ⟨lookups.1, lookups.2.1, lookups.2.2, mask, ?_⟩
  rw [get_blending_mode_cases]
  by_cases ha : t.terrain_type_count ≤ a
  · simp [ha]
  · by_cases hb : t.terrain_type_count ≤ b
    · simp [ha, hb]
    · simp [ha, hb]

/-- C16: `get_chunk_neighbors` is an idempotent, non-mutating read. The call leaves the world
(the chunk store and every chunk object) as it was, and a second call at the same position
returns the same eight slots. -/
theorem get_chunk_neighbors_idempotent (w : World) (p : coord.chunk) :
    (w.get_chunk_neighbors p).2 = w ∧
    ((w.get_chunk_neighbors p).2.get_chunk_neighbors p).1 = (w.get_chunk_neighbors p).1 ∧
    (w.terrain.get_chunk_neighbors p).2 = w.terrain := by
  have h : (w.get_chunk_neighbors p).2 = w := by
    simp only [World.get_chunk_neighbors, get_chunk_neighbors_snd]
  exact ⟨h, by rw [h], get_chunk_neighbors_snd _ _⟩

/-- C17, as stated, fails: the error raised for id 5 is the same on a terrain whose bound is 2
and on a terrain whose bound is 0; its content is the text with the id and carries no
bound. -/
theorem range_error_has_no_bound :
    two_type_terrain.terrain_type_count = 2 ∧ World.blank.terrain.terrain_type_count = 0 ∧
    two_type_terrain.valid_terrain 5 =
      Except.error { msg := "requested terrain_id is out of range: 5" } ∧
    World.blank.terrain.valid_terrain 5 =
      Except.error { msg := "requested terrain_id is out of range: 5" } ∧
    two_type_terrain.valid_mask 5 =
      Except.error { msg := "requested mask_id is out of range: 5" } :=
  ⟨rfl, rfl, rfl, rfl, rfl⟩

/-- C17, amended: range errors carry the offending id. Whenever `valid_terrain(id)` fails, it
and `priority`, `blendmode` and `texture` raise the error whose text is "requested terrain_id
is out of range: " followed by the id, and so does `get_blending_mode` for its first
out-of-range id; whenever `valid_mask(id)` fails, it and `blending_mask` raise the error whose
text is "requested mask_id is out of range: " followed by the id. -/
theorem range_error_carries_id (t : Terrain) (id other : Nat) :
    (t.terrain_type_count ≤ id →
      t.valid_terrain id = Except.error (terrain_range_error id) ∧
      t.priority id = Except.error (terrain_range_error id) ∧
      t.blendmode id = Except.error (terrain_range_error id) ∧
      t.texture id = Except.error (terrain_range_error id) ∧
      t.get_blending_mode id other = Except.error (terrain_range_error id) ∧
      (other < t.terrain_type_count →
        t.get_blending_mode other id = Except.error (terrain_range_error id))) ∧
    (t.blendmode_count ≤ id →
      t.valid_mask id = Except.error (mask_range_error id) ∧
      t.blending_mask id = Except.error (mask_range_error id)) ∧
    (terrain_range_error id).msg = "requested terrain_id is out of range: " ++ toString id ∧
    (mask_range_error id).msg = "requested mask_id is out of range: " ++ toString id := by
  refine ⟨fun h => ?_, fun h => ⟨valid_mask_error t id h, blending_mask_error t id h⟩, rfl, rfl⟩
  obtain ⟨l1, l2, l3⟩ := lookups_error t id h
  refine ⟨valid_terrain_error t id h, l1, l2, l3, ?_, ?_⟩
  · rw [get_blending_mode_cases, if_pos h]
  · intro ho
    rw [get_blending_mode_cases, if_neg (by omega), if_pos h]

/-- Witness of the amended C17: id 5 on the two-type registry. -/
theorem range_error_carries_id_witness :
    two_type_terrain.terrain_type_count ≤ 5 ∧
    two_type_terrain.priority 5 = Except.error (terrain_range_error 5) :=
  ⟨by decide, ((range_error_carries_id two_type_terrain 5 0).1 (by decide)).2.1⟩

/-! ## Frame of the attach protocol, range of the sub-texture index -/

/-- C19: the frame of `attach_chunk(c, p)`. In the store only the entry at `p` changes; a
neighbor slot `j` of a chunk `a` changes only if `a` is stored one step from `p` in a
direction `i` with `(i+4) mod 8 = j`; in particular no slot of `c` changes when `c` is not
stored at a position adjacent to `p`; the counts, the priority and blend-mode tables and the
texture tables are unchanged. -/
theorem attach_chunk_frame (w : World) (c : Nat) (p : coord.chunk) :
    (∀ q, q ≠ p →
      (w.attach_chunk c p).terrain.chunks.find q = w.terrain.chunks.find q ∧
      ((w.attach_chunk c p).terrain.get_chunk q).1 = (w.terrain.get_chunk q).1) ∧
    (∀ (a : Nat) (j : Fin 8),
      (¬ ∃ i, (w.terrain.get_chunk (step p i)).1 = some a ∧ opposite i = j) →
      ((w.attach_chunk c p).heap a).neighbors.neighbor j = (w.heap a).neighbors.neighbor j) ∧
    ((∀ i, (w.terrain.get_chunk (step p i)).1 ≠ some c) →
      ∀ j, ((w.attach_chunk c p).heap c).neighbors.neighbor j =
        (w.heap c).neighbors.neighbor j) ∧
    (w.attach_chunk c p).terrain.terrain_type_count = w.terrain.terrain_type_count ∧
    (w.attach_chunk c p).terrain.blendmode_count = w.terrain.blendmode_count ∧
    (w.attach_chunk c p).terrain.terrain_id_priority_map = w.terrain.terrain_id_priority_map ∧
    (w.attach_chunk c p).terrain.terrain_id_blendmode_map = w.terrain.terrain_id_blendmode_map ∧
    (w.attach_chunk c p).terrain.textures = w.terrain.textures ∧
    (w.attach_chunk c p).terrain.blending_masks = w.terrain.blending_masks := by
  have slot : ∀ (a : Nat) (j : Fin 8),
      (¬ ∃ i, (w.terrain.get_chunk (step p i)).1 = some a ∧ opposite i = j) →
      ((w.attach_chunk c p).heap a).neighbors.neighbor j = (w.heap a).neighbors.neighbor j := by
    intro a j h
    rw [attach_chunk_slot, if_neg]
    rintro ⟨i, hi, hij⟩
    exact h ⟨i, by rw [get_chunk_fst, Option.join_eq_some]; exact hi, hij⟩
  have store : ∀ q, q ≠ p →
      (w.attach_chunk c p).terrain.chunks.find q = w.terrain.chunks.find q := by
    intro q hq
    rw [attach_chunk_find, if_neg (fun h => hq h.symm)]
  refine ⟨?_, slot, ?_, ?_⟩
  · intro q hq
    refine ⟨store q hq, ?_⟩
    rw [get_chunk_fst, get_chunk_fst, store q hq]
  · intro h j
    apply slot
    rintro ⟨i, hi, _⟩
    exact h i hi
  · rw [attach_chunk_terrain]
    exact ⟨rfl, rfl, rfl, rfl, rfl, rfl⟩

/-- Witness of C19: chunk 1 is stored at (0,0) and chunk 2 is attached at (1,-1); the entry
at (0,0) and slot 3 of chunk 1 are as before. -/
theorem attach_chunk_frame_witness :
    ((⟨0, 0⟩ : coord.chunk) ≠ ⟨1, -1⟩) ∧
    (((World.blank.attach_chunk 1 ⟨0, 0⟩).attach_chunk 2 ⟨1, -1⟩).terrain.get_chunk ⟨0, 0⟩).1 =
      ((World.blank.attach_chunk 1 ⟨0, 0⟩).terrain.get_chunk ⟨0, 0⟩).1 :=
  ⟨by decide,
   ((attach_chunk_frame (World.blank.attach_chunk 1 ⟨0, 0⟩) 2 ⟨1, -1⟩).1 ⟨0, 0⟩
      (by decide)).2⟩

/-- C20: the sub-texture index stays inside the atlas. For every tile position, chunk
position and atlas size of at least 1 the call returns an index below `atlas_size *
atlas_size`; the call has no result exactly when `atlas_size` is 0. -/
theorem get_subtexture_id_in_atlas (tiles_per_chunk : Nat) (pos : coord.tile)
    (atlas_size : Nat) (chunk_pos : coord.chunk) :
    (1 ≤ atlas_size →
      ∃ r, Terrain.get_subtexture_id tiles_per_chunk pos atlas_size chunk_pos = some r ∧
        r < atlas_size * atlas_size) ∧
    (Terrain.get_subtexture_id tiles_per_chunk pos atlas_size chunk_pos = none ↔
      atlas_size = 0) := by
  have bound : 1 ≤ atlas_size →
      ∃ r, Terrain.get_subtexture_id tiles_per_chunk pos atlas_size chunk_pos = some r ∧
        r < atlas_size * atlas_size := by
    intro h
    refine ⟨_, get_subtexture_id_eq tiles_per_chunk pos atlas_size chunk_pos h, ?_⟩
    have hN : (0 : Int) < (atlas_size : Int) := by omega
    generalize (chunk_pos.to_tile tiles_per_chunk (pos.get_pos_on_chunk tiles_per_chunk)).se = y
    generalize (chunk_pos.to_tile tiles_per_chunk (pos.get_pos_on_chunk tiles_per_chunk)).ne = x
    have ha0 : 0 ≤ y % (atlas_size : Int) := Int.emod_nonneg _ (by omega)
    have ha1 : y % (atlas_size : Int) < atlas_size := Int.emod_lt_of_pos _ hN
    have hb0 : 0 ≤ x % (atlas_size : Int) := Int.emod_nonneg _ (by omega)
    have hb1 : x % (atlas_size : Int) < atlas_size := Int.emod_lt_of_pos _ hN
    have hmul : y % (atlas_size : Int) * atlas_size ≤ ((atlas_size : Int) - 1) * atlas_size :=
      mul_le_mul_of_nonneg_right (by omega) (by omega)
    have hmul0 : 0 ≤ y % (atlas_size : Int) * atlas_size := mul_nonneg ha0 (by omega)
    have hsq : ((atlas_size : Int) - 1) * atlas_size = (atlas_size : Int) * atlas_size - atlas_size := by
      ring
    have hz0 : 0 ≤ y % (atlas_size : Int) * atlas_size + x % (atlas_size : Int) := by
      linarith
    have hz1 : y % (atlas_size : Int) * atlas_size + x % (atlas_size : Int) <
        (atlas_size : Int) * atlas_size := by
      linarith
    generalize y % (atlas_size : Int) * atlas_size + x % (atlas_size : Int) = z at hz0 hz1
    have hm0 : 0 ≤ z % (2 ^ 32 : Int) := Int.emod_nonneg _ (by norm_num)
    have hm : z % (2 ^ 32 : Int) ≤ z := by
      norm_num
      omega
    have hlt : z % (2 ^ 32 : Int) < ((atlas_size * atlas_size : Nat) : Int) := by
      push_cast
      exact lt_of_le_of_lt hm hz1
    exact (Int.toNat_lt hm0).mpr hlt
  refine ⟨bound, ?_⟩
  constructor
  · intro h
    by_contra hne
    obtain ⟨r, hr, _⟩ := bound (Nat.one_le_iff_ne_zero.mpr hne)
    rw [hr] at h
    exact Option.noConfusion h
  · intro h
    subst h
    simp [Terrain.get_subtexture_id, util.mod]

/-- Witness of C20: tile (-3, 7) on chunk (2, -1), chunks 16 tiles wide, atlas of size 5. -/
theorem get_subtexture_id_in_atlas_witness :
    1 ≤ 5 ∧ ∃ r, Terrain.get_subtexture_id 16 ⟨-3, 7⟩ 5 ⟨2, -1⟩ = some r ∧ r < 5 * 5 :=
  ⟨by decide, (get_subtexture_id_in_atlas 16 ⟨-3, 7⟩ 5 ⟨2, -1⟩).1 (by decide)⟩

/-! ## Link soundness -/

theorem attach_invariant_fresh (tp n : Nat) (terrain_meta : Nat → terrain_type) (m : Nat)
    (blending_meta : Nat → blending_mode) (heap : Nat → TerrainChunk) :
    (World.fresh tp n terrain_meta m blending_meta heap).attach_invariant [] := by
  refine ⟨?_, ?_, ?_⟩
  · intro p X d Y h
    rw [fresh_find] at h
    exact Option.noConfusion h
  · intro p q X h
    rw [fresh_find] at h
    exact Option.noConfusion h
  · intro p X h
    rw [fresh_find] at h
    exact Option.noConfusion h

theorem attach_invariant_step (w : World) (attached : List Nat) (B : Nat) (q : coord.chunk)
    (hinv : w.attach_invariant attached) (hnew : B ∉ attached)
    (hblank : ∀ j, (w.heap B).neighbors.neighbor j = none) :
    (w.attach_chunk B q).attach_invariant (B :: attached) := by
  obtain ⟨I1, I2, I3⟩ := hinv
  have notStored : ∀ r, w.terrain.chunks.find r ≠ some (some B) :=
    fun r h => hnew (I3 r B h)
  have findNew : ∀ r X, (w.attach_chunk B q).terrain.chunks.find r = some (some X) →
      (r = q ∧ X = B) ∨ (r ≠ q ∧ X ≠ B ∧ w.terrain.chunks.find r = some (some X)) := by
    intro r X h
    rw [attach_chunk_find] at h
    by_cases hq : q = r
    · rw [if_pos hq] at h
      left
      refine ⟨hq.symm, ?_⟩
      simpa using h.symm
    · rw [if_neg hq] at h
      right
      refine ⟨fun e => hq e.symm, ?_, h⟩
      intro e
      subst e
      exact notStored r h
  refine ⟨?_, ?_, ?_⟩
  · intro p X d Y hp hY
    rw [attach_chunk_slot] at hY
    rcases findNew p X hp with ⟨_, hX⟩ | ⟨hpq, hXB, hold⟩
    · subst hX
      rw [if_neg (fun ⟨i, hi, _⟩ => notStored _ hi), hblank] at hY
      exact Option.noConfusion hY
    · by_cases hex : ∃ i, w.terrain.chunks.find (step q i) = some (some X) ∧ opposite i = d
      · rw [if_pos hex] at hY
        obtain ⟨i, hi, hid⟩ := hex
        have hpos : step q i = p := I2 _ _ X hi hold
        have hback : step p d = q := by
          rw [← hpos, ← hid, step_opposite]
        rw [hback, attach_chunk_find, if_pos rfl, ← hY]
      · rw [if_neg hex] at hY
        have hgo := I1 p X d Y hold hY
        rw [attach_chunk_find]
        by_cases hq : q = step p d
        · exfalso
          apply hex
          refine ⟨opposite d, ?_, opposite_opposite d⟩
          rw [hq, step_opposite]
          exact hold
        · rw [if_neg hq]
          exact hgo
  · intro p r X hp hr
    rcases findNew p X hp with ⟨hp1, hX⟩ | ⟨_, hXB, hold⟩
    · rcases findNew r X hr with ⟨hr1, _⟩ | ⟨_, hXB2, _⟩
      · rw [hp1, hr1]
      · exact absurd hX hXB2
    · rcases findNew r X hr with ⟨_, hX2⟩ | ⟨_, _, hold2⟩
      · exact absurd hX2 hXB
      · exact I2 p r X hold hold2
  · intro p X hp
    rcases findNew p X hp with ⟨_, hX⟩ | ⟨_, _, hold⟩
    · rw [hX]
      exact List.mem_cons_self _ _
    · exact List.mem_cons_of_mem _ (I3 p X hold)

theorem attach_invariant_prefix (calls : List (Nat × coord.chunk)) :
    ∀ (w : World) (attached : List Nat), w.attach_invariant attached →
      w.admissible attached calls →
      ∀ k, ∃ att, (w.attach_all (calls.take k)).attach_invariant att := by
  induction calls with
  | nil =>
    intro w attached hinv _ k
    exact ⟨attached, by simpa [World.attach_all] using hinv⟩
  | cons c rest ih =>
    intro w attached hinv hadm k
    obtain ⟨hnew, hblank, hrest⟩ := hadm
    cases k with
    | zero => exact ⟨attached, by simpa [World.attach_all] using hinv⟩
    | succ k =>
      have hstep := attach_invariant_step w attached c.1 c.2 hinv hnew hblank
      obtain ⟨att, hatt⟩ := ih (w.attach_chunk c.1 c.2) (c.1 :: attached) hstep hrest k
      exact ⟨att, by simpa [World.attach_all] using hatt⟩

/-- C18: link soundness. Starting from a freshly constructed terrain, for every sequence of
attach calls in which each chunk object is attached at most once and has all eight slots empty
when attached (positions may repeat), after every call: if the chunk `X` stored at `p` has a
chunk `Y` in slot `d`, then `Y` is the chunk stored one step from `p` in direction `d`. -/
theorem link_soundness (tp n : Nat) (terrain_meta : Nat → terrain_type) (m : Nat)
    (blending_meta : Nat → blending_mode) (heap : Nat → TerrainChunk)
    (calls : List (Nat × coord.chunk))
    (h : (World.fresh tp n terrain_meta m blending_meta heap).admissible [] calls) (k : Nat) :
    ((World.fresh tp n terrain_meta m blending_meta heap).attach_all (calls.take k)).link_sound := by
  obtain ⟨att, I1, _, _⟩ := attach_invariant_prefix calls _ []
    (attach_invariant_fresh tp n terrain_meta m blending_meta heap) h k
  intro p X d Y hX hY
  rw [get_chunk_fst, Option.join_eq_some] at hX
  rw [get_chunk_fst, Option.join_eq_some]
  exact I1 p X d Y hX hY

/-- Witness of C18: chunk 1 at (0,0), chunk 2 at (1,-1), then chunk 3 again at (1,-1). -/
theorem link_soundness_witness :
    World.blank.admissible [] [(1, ⟨0, 0⟩), (2, ⟨1, -1⟩), (3, ⟨1, -1⟩)] ∧
    (World.blank.attach_all
      (([(1, ⟨0, 0⟩), (2, ⟨1, -1⟩), (3, ⟨1, -1⟩)] : List (Nat × coord.chunk)).take 3)).link_sound :=
  ⟨by
    refine ⟨by decide, by decide, by decide, by decide, by decide, by decide, trivial⟩,
   link_soundness 0 0 (fun _ => ⟨0, 0, 0, 0, 0, 0, 0, 0, 0, 0, 0⟩) 0 (fun _ => ⟨0, 0⟩)
    (fun _ => TerrainChunk.blank) [(1, ⟨0, 0⟩), (2, ⟨1, -1⟩), (3, ⟨1, -1⟩)]
    (by refine ⟨by decide, by decide, by decide, by decide, by decide, by decide, trivial⟩) 3⟩

/-! ## The metadata line parsers -/

theorem digit_not_space (c : Char) (h : is_digit c = true) : is_space c = false := by
  simp only [is_digit, is_space, decide_eq_true_eq, decide_eq_false_iff_not] at *
  omega

theorem digit_not_sign (c : Char) (h : is_digit c = true) : c ≠ '-' ∧ c ≠ '+' := by
  constructor
  · intro e
    subst e
    revert h
    decide
  · intro e
    subst e
    revert h
    decide

theorem take_digits_append (ds rest : List Char) (hds : ∀ c ∈ ds, is_digit c = true)
    (hrest : ∀ c, rest.head? = some c → is_digit c = false) :
    take_digits (ds ++ rest) = (ds, rest) := by
  induction ds with
  | nil =>
    cases rest with
    | nil => rfl
    | cons c r =>
      have hc : is_digit c = false := hrest c rfl
      simp [take_digits, hc]
  | cons d tl ih =>
    have hd : is_digit d = true := hds d (List.mem_cons_self _ _)
    have htl := ih (fun c hc => hds c (List.mem_cons_of_mem _ hc))
    simp [take_digits, hd, htl]

theorem scan_decimal_cons (c : Char) (body : List Char) (hsp : is_space c = false) :
    scan_decimal (c :: body) =
      if c = '-' then
        if (take_digits body).1 = [] then scan_outcome.matching_failure
        else scan_outcome.converted true (digits_value (take_digits body).1) (take_digits body).2
      else if c = '+' then
        if (take_digits body).1 = [] then scan_outcome.matching_failure
        else scan_outcome.converted false (digits_value (take_digits body).1) (take_digits body).2
      else
        if (take_digits (c :: body)).1 = [] then scan_outcome.matching_failure
        else
          scan_outcome.converted false (digits_value (take_digits (c :: body)).1)
            (take_digits (c :: body)).2 := by
  have hskip : skip_space (c :: body) = c :: body := by
    simp [skip_space, hsp]
  unfold scan_decimal
  rw [hskip]

theorem scan_decimal_field (negative : Bool) (ds rest : List Char) (hds : is_numeral ds)
    (hrest : ∀ c, rest.head? = some c → is_digit c = false) :
    scan_decimal (signed_text negative ds ++ rest) =
      scan_outcome.converted negative (digits_value ds) rest := by
  obtain ⟨hne, hall⟩ := hds
  have htake := take_digits_append ds rest hall hrest
  cases negative with
  | true =>
    have hsp : is_space '-' = false := by decide
    have hform : signed_text true ds ++ rest = '-' :: (ds ++ rest) := rfl
    rw [hform, scan_decimal_cons _ _ hsp, if_pos rfl, htake]
    simp [hne]
  | false =>
    cases ds with
    | nil => exact absurd rfl hne
    | cons d tl =>
      have hd : is_digit d = true := hall d (List.mem_cons_self _ _)
      have hsp := digit_not_space d hd
      obtain ⟨hm, hp⟩ := digit_not_sign d hd
      have hform : signed_text false (d :: tl) ++ rest = d :: (tl ++ rest) := rfl
      rw [List.cons_append] at htake
      rw [hform, scan_decimal_cons _ _ hsp, if_neg hm, if_neg hp, htake]
      simp

theorem sscanf_step_ordinary (c : Char) (fmt : List scan_directive) (rest : List Char)
    (got : List Int) :
    sscanf_from (scan_directive.ordinary c :: fmt) (c :: rest) got = sscanf_from fmt rest got := by
  simp [sscanf_from]

theorem sscanf_step_u (fmt : List scan_directive) (ds rest : List Char) (got : List Int)
    (hds : is_unsigned_text ds) (hrest : ∀ c, rest.head? = some c → is_digit c = false) :
    sscanf_from (scan_directive.conv_u :: fmt) (ds ++ rest) got =
      sscanf_from fmt rest (got ++ [(digits_value ds : Int)]) := by
  have h := scan_decimal_field false ds rest hds.1 hrest
  simp only [signed_text, Bool.false_eq_true, if_false] at h
  have hr : digits_value ds < 4294967296 := hds.2
  simp only [sscanf_from, h]
  simp [hr]

theorem sscanf_step_d (fmt : List scan_directive) (negative : Bool) (ds rest : List Char)
    (got : List Int) (hds : is_int_text negative ds)
    (hrest : ∀ c, rest.head? = some c → is_digit c = false) :
    sscanf_from (scan_directive.conv_d :: fmt) (signed_text negative ds ++ rest) got =
      sscanf_from fmt rest (got ++ [signed_value negative ds]) := by
  have h := scan_decimal_field negative ds rest hds.1 hrest
  obtain ⟨_, hlo, hhi⟩ := hds
  cases negative with
  | true =>
    simp only [signed_value, if_true] at hlo hhi
    norm_num at hlo
    have hm : digits_value ds ≤ 2147483648 := by omega
    simp only [sscanf_from, h]
    simp [hm, signed_value]
  | false =>
    simp only [signed_value, Bool.false_eq_true, if_false] at hlo hhi
    norm_num at hhi
    have hm : digits_value ds < 2147483648 := by omega
    simp only [sscanf_from, h]
    simp [hm, signed_value]

theorem sscanf_step_d_last (fmt : List scan_directive) (negative : Bool) (ds : List Char)
    (got : List Int) (hds : is_int_text negative ds) :
    sscanf_from (scan_directive.conv_d :: fmt) (signed_text negative ds) got =
      sscanf_from fmt [] (got ++ [signed_value negative ds]) := by
  have h := sscanf_step_d fmt negative ds [] got hds (fun c hc => by simp at hc)
  rwa [List.append_nil] at h

theorem comma_not_digit (rest : List Char) :
    ∀ c, ((',' : Char) :: rest).head? = some c → is_digit c = false := by
  intro c hc
  simp only [List.head?_cons, Option.some.injEq] at hc
  subst hc
  decide

theorem equals_not_digit (rest : List Char) :
    ∀ c, (('=' : Char) :: rest).head? = some c → is_digit c = false := by
  intro c hc
  simp only [List.head?_cons, Option.some.injEq] at hc
  subst hc
  decide

/-- C14: malformed lines are accepted by the code. `terrain_type::fill` returns 0 (success) on the
empty line and on a line with three of the eleven fields, `blending_mode::fill` returns 0 on
the empty line and on a line with one of the two fields; only a line whose first field does
not convert, such as "abc", gets the failure code -1. -/
theorem fill_accepts_malformed_lines :
    terrain_type.fill terrain_type.zero "".toList = some (0, terrain_type.zero) ∧
    terrain_type.fill terrain_type.zero "7=1,2".toList =
      some (0, ⟨7, 1, 2, 0, 0, 0, 0, 0, 0, 0, 0⟩) ∧
    blending_mode.fill ⟨0, 0⟩ "".toList = some (0, ⟨0, 0⟩) ∧
    blending_mode.fill ⟨0, 0⟩ "7".toList = some (0, ⟨7, 0⟩) ∧
    terrain_type.fill terrain_type.zero "abc".toList = some (-1, terrain_type.zero) := by
  decide

/-- C15: well-formed lines parse in the fixed field order. For every line `u=v1,...,v10` with
`u` an unsigned decimal integer and `v1` to `v10` signed decimal integers (each within the
range of its C type), `terrain_type::fill` returns 0 and stores `u` in `id` and `v1` to `v10`
in `terrain_id`, `slp_id`, `sound_id`, `blend_mode`, `blend_priority`, `angle_count`,
`frame_count`, `terrain_dimensions0`, `terrain_dimensions1`, `terrain_replacement_id`; and
`blending_mode::fill` on `u=v1` returns 0 and stores `u` in `id` and `v1` in `mode_id`. -/
theorem fill_parses_well_formed_line (self : terrain_type) (mode : blending_mode)
    (u : List Char) (n1 n2 n3 n4 n5 n6 n7 n8 n9 n10 : Bool) (d1 d2 d3 d4 d5 d6 d7 d8 d9 d10 : List Char)
    (hu : is_unsigned_text u)
    (h1 : is_int_text n1 d1)
    (h2 : is_int_text n2 d2)
    (h3 : is_int_text n3 d3)
    (h4 : is_int_text n4 d4)
    (h5 : is_int_text n5 d5)
    (h6 : is_int_text n6 d6)
    (h7 : is_int_text n7 d7)
    (h8 : is_int_text n8 d8)
    (h9 : is_int_text n9 d9)
    (h10 : is_int_text n10 d10) :
    terrain_type.fill self
        (u ++ '=' :: (signed_text n1 d1 ++ ',' :: (signed_text n2 d2 ++ ',' :: (signed_text n3 d3 ++ ',' :: (signed_text n4 d4 ++ ',' :: (signed_text n5 d5 ++ ',' :: (signed_text n6 d6 ++ ',' :: (signed_text n7 d7 ++ ',' :: (signed_text n8 d8 ++ ',' :: (signed_text n9 d9 ++ ',' :: (signed_text n10 d10))))))))))) =
      some (0,
        { id := digits_value u
          terrain_id := signed_value n1 d1
          slp_id := signed_value n2 d2
          sound_id := signed_value n3 d3
          blend_mode := signed_value n4 d4
          blend_priority := signed_value n5 d5
          angle_count := signed_value n6 d6
          frame_count := signed_value n7 d7
          terrain_dimensions0 := signed_value n8 d8
          terrain_dimensions1 := signed_value n9 d9
          terrain_replacement_id := signed_value n10 d10 }) ∧
    blending_mode.fill mode (u ++ '=' :: signed_text n1 d1) =
      some (0, { id := digits_value u, mode_id := signed_value n1 d1 }) := by
  have hfmt : parse_format "%u=%d,%d,%d,%d,%d,%d,%d,%d,%d,%d".toList =
      [scan_directive.conv_u, scan_directive.ordinary '=', scan_directive.conv_d,
        scan_directive.ordinary ',', scan_directive.conv_d,
        scan_directive.ordinary ',', scan_directive.conv_d,
        scan_directive.ordinary ',', scan_directive.conv_d,
        scan_directive.ordinary ',', scan_directive.conv_d,
        scan_directive.ordinary ',', scan_directive.conv_d,
        scan_directive.ordinary ',', scan_directive.conv_d,
        scan_directive.ordinary ',', scan_directive.conv_d,
        scan_directive.ordinary ',', scan_directive.conv_d,
        scan_directive.ordinary ',', scan_directive.conv_d] := by decide
  have hfmt2 : parse_format "%u=%d".toList =
      [scan_directive.conv_u, scan_directive.ordinary '=', scan_directive.conv_d] := by decide
  constructor
  · unfold terrain_type.fill sscanf
    rw [hfmt, sscanf_step_u _ _ _ _ hu (equals_not_digit _), sscanf_step_ordinary,
    sscanf_step_d _ _ _ _ _ h1 (comma_not_digit _), sscanf_step_ordinary,
    sscanf_step_d _ _ _ _ _ h2 (comma_not_digit _), sscanf_step_ordinary,
    sscanf_step_d _ _ _ _ _ h3 (comma_not_digit _), sscanf_step_ordinary,
    sscanf_step_d _ _ _ _ _ h4 (comma_not_digit _), sscanf_step_ordinary,
    sscanf_step_d _ _ _ _ _ h5 (comma_not_digit _), sscanf_step_ordinary,
    sscanf_step_d _ _ _ _ _ h6 (comma_not_digit _), sscanf_step_ordinary,
    sscanf_step_d _ _ _ _ _ h7 (comma_not_digit _), sscanf_step_ordinary,
    sscanf_step_d _ _ _ _ _ h8 (comma_not_digit _), sscanf_step_ordinary,
    sscanf_step_d _ _ _ _ _ h9 (comma_not_digit _), sscanf_step_ordinary,
    sscanf_step_d_last _ _ _ _ h10]
    simp [sscanf_from, terrain_type.store]
  · unfold blending_mode.fill sscanf
    rw [hfmt2, sscanf_step_u _ _ _ _ hu (equals_not_digit _), sscanf_step_ordinary,
      sscanf_step_d_last _ _ _ _ h1]
    simp [sscanf_from, blending_mode.store]

/-- Witness of C15: the line `7=1,1,1,1,-5,1,1,1,1,1`. -/
theorem fill_parses_well_formed_line_witness :
    is_unsigned_text ['7'] ∧ is_int_text false ['1'] ∧ is_int_text true ['5'] ∧
    terrain_type.fill terrain_type.zero "7=1,1,1,1,-5,1,1,1,1,1".toList =
      some (0, ⟨7, 1, 1, 1, 1, -5, 1, 1, 1, 1, 1⟩) :=
  ⟨⟨⟨by decide, by decide⟩, by decide⟩,
   ⟨⟨by decide, by decide⟩, by decide, by decide⟩,
   ⟨⟨by decide, by decide⟩, by decide, by decide⟩,
   (fill_parses_well_formed_line terrain_type.zero ⟨0, 0⟩ ['7']
      false false false false true false false false false false
      ['1'] ['1'] ['1'] ['1'] ['5'] ['1'] ['1'] ['1'] ['1'] ['1']
      ⟨⟨by decide, by decide⟩, by decide⟩
      ⟨⟨by decide, by decide⟩, by decide, by decide⟩
      ⟨⟨by decide, by decide⟩, by decide, by decide⟩
      ⟨⟨by decide, by decide⟩, by decide, by decide⟩
      ⟨⟨by decide, by decide⟩, by decide, by decide⟩
      ⟨⟨by decide, by decide⟩, by decide, by decide⟩
      ⟨⟨by decide, by decide⟩, by decide, by decide⟩
      ⟨⟨by decide, by decide⟩, by decide, by decide⟩
      ⟨⟨by decide, by decide⟩, by decide, by decide⟩
      ⟨⟨by decide, by decide⟩, by decide, by decide⟩
      ⟨⟨by decide, by decide⟩, by decide, by decide⟩).1⟩

end engine
